import Mathlib

/-!
Verification of the task/workflow graph builder of gbdxtools
(gbdxtools/simpleworkflows.py), as a shallow embedding.

Python attribute dictionaries are modelled as association lists, Python
values appearing on ports as the inductive type PyVal, raising as
Except.error carrying the exception message, and the remote workflow
service as an explicit oracle record passed to every operation that
would perform a network call.
-/

/-- Python values that can appear as a port value, a kwarg, or a batch
element: None, bool, str, int, and list. -/
inductive PyVal where
  | none
  | bool (b : Bool)
  | str (s : String)
  | int (n : Int)
  | list (l : List PyVal)

/-- Python str.replace core loop: scan left to right, replacing each
non-overlapping occurrence of pat by repl.  Structured with explicit fuel
(one unit per character consumed) so the function is structurally
recursive; pyReplace below supplies fuel equal to the length of the
string, which is always enough.  The empty pattern (where Python would
interleave repl everywhere) never occurs in this code base and is
treated as no match. -/
def replGo (pat repl : List Char) : Nat → List Char → List Char
  | _, [] => []
  | 0, s => s
  | fuel+1, c :: cs =>
      if pat ≠ [] ∧ pat.isPrefixOf (c :: cs) = true then
        repl ++ replGo pat repl fuel ((c :: cs).drop pat.length)
      else c :: replGo pat repl fuel cs

/-- Python s.replace(pat, repl). -/
def pyReplace (s pat repl : String) : String :=
  String.mk (replGo pat.data repl.data s.data.length s.data)

/-- Python s.startswith(pre). -/
def pyStartsWith (s pre : String) : Bool :=
  pre.data.isPrefixOf s.data

/-- Python substring containment (sub in s), on character lists. -/
def hasSubstr (s pat : List Char) : Bool :=
  match s with
  | [] => pat.isEmpty
  | _ :: cs => pat.isPrefixOf s || hasSubstr cs pat

/-- Whether suf is a suffix of s, on character lists. -/
def endsWithL (s suf : List Char) : Bool :=
  s.drop (s.length - suf.length) == suf

/-- List concatenation of the images of f (a Python nested list
comprehension). -/
def concatMap (f : α → List β) : List α → List β
  | [] => []
  | x :: xs => f x ++ concatMap f xs

/-- Port: one named value slot (simpleworkflows.Port.__init__).  The
optional persist attributes model the _persist / _persist_location
attributes, absent until their setters run. -/
structure Port where
  name : String
  type : String
  required : Option Bool
  description : Option String
  value : PyVal
  is_input_port : Bool := true
  is_multiplex : Bool := false
  persist_attr : Option Bool := Option.none
  persist_location_attr : Option String := Option.none

/-- Port.persist property: always False for input ports, else the
_persist attribute defaulting to False. -/
def Port.persist (p : Port) : Bool :=
  if p.is_input_port then false else p.persist_attr.getD false

/-- Port.persist_location property: always None for input ports, else
the _persist_location attribute defaulting to None. -/
def Port.persist_location (p : Port) : Option String :=
  if p.is_input_port then Option.none else p.persist_location_attr

/-- One entry of inputPortDescriptors / outputPortDescriptors as
returned by the task registry: a dict with name, type and the optional
keys required, description, multiplex. -/
structure PortDescriptor where
  name : String
  type : String
  required : Option Bool := Option.none
  description : Option String := Option.none
  multiplex : Option Bool := Option.none

/-- A Python attribute value stored on a PortList: normally a Port
object, but the bootstrap branch of Inputs.__setattr__ can store a raw
value. -/
inductive Attr where
  | port (p : Port)
  | raw (v : PyVal)

/-- The state of a PortList (Inputs or Outputs): the _portnames set
(modelled as a duplicate-free list) plus the object attribute
dictionary (modelled as an association list). -/
structure PortListState where
  portnames : List String
  attrs : List (String × Attr)

/-- object.__getattribute__ on the attribute dictionary. -/
def alookup (k : String) : List (String × Attr) → Option Attr
  | [] => Option.none
  | (k2, a) :: rest => if k2 = k then some a else alookup k rest

/-- object.__setattr__ on the attribute dictionary: replace the binding
if present, else append it. -/
def updateAttr (k : String) (a : Attr) : List (String × Attr) → List (String × Attr)
  | [] => [(k, a)]
  | (k2, a2) :: rest => if k2 = k then (k, a) :: rest else (k2, a2) :: updateAttr k a rest

/-- object.__setattr__ on a PortList (does not touch _portnames). -/
def setattrObj (pl : PortListState) (k : String) (a : Attr) : PortListState :=
  { pl with attrs := updateAttr k a pl.attrs }

/-- hasattr(self, k). -/
def hasattr (pl : PortListState) (k : String) : Bool :=
  (alookup k pl.attrs).isSome

/-- Retrieve the Port stored under attribute k, if the attribute exists
and is a Port. -/
def getPort (pl : PortListState) (k : String) : Option Port :=
  match alookup k pl.attrs with
  | some (Attr.port p) => some p
  | _ => Option.none

/-- The name of the Port registered under k, if any (used to state the
portname invariant). -/
def portNameAt (pl : PortListState) (k : String) : Option String :=
  (getPort pl k).map (fun p => p.name)

/-- self._portnames.update([k]): insert k into the portname set. -/
def addPortname (pl : PortListState) (k : String) : PortListState :=
  if k ∈ pl.portnames then pl else { pl with portnames := pl.portnames ++ [k] }

/-- PortList.get_matching_multiplex_port: among the registered names p
that are a proper prefix of the requested name, have an attribute, and
whose port is multiplex, return the port of the first one (set
iteration order modelled by the portnames list order). -/
def get_matching_multiplex_port (pl : PortListState) (n : String) : Option Port :=
  ((pl.portnames.filter (fun p =>
      pyStartsWith n p && (n != p) && hasattr pl p &&
      (match getPort pl p with
       | some q => q.is_multiplex
       | Option.none => false))).head?).bind
    (fun p => getPort pl p)

/-- The Port built in PortList.__init__ for an input descriptor:
value None, input direction, multiplex flag from the descriptor. -/
def portFromInputDescriptor (d : PortDescriptor) : Port :=
  { name := d.name, type := d.type, required := d.required,
    description := d.description, value := PyVal.none,
    is_multiplex := d.multiplex.getD false }

/-- Inputs as built by PortList.__init__: portnames is the set of
descriptor names, each name bound to a fresh Port.  (Duplicate
descriptor names, which Python would fold through the bootstrap branch,
are not given special treatment: the first binding wins in lookups.) -/
def initInputs (descs : List PortDescriptor) : PortListState :=
  { portnames := (descs.map (fun d => d.name)).dedup,
    attrs := descs.map (fun d => (d.name, Attr.port (portFromInputDescriptor d))) }

/-- The Port built in Outputs.__init__ for an output descriptor: its
value is the forward-reference string source:<task_name>:<port_name>. -/
def portFromOutputDescriptor (task_name : String) (d : PortDescriptor) : Port :=
  { name := d.name, type := d.type, required := d.required,
    description := d.description,
    value := PyVal.str ("source:" ++ task_name ++ ":" ++ d.name),
    is_input_port := false,
    is_multiplex := d.multiplex.getD false }

/-- Outputs as built by Outputs.__init__. -/
def initOutputs (descs : List PortDescriptor) (task_name : String) : PortListState :=
  { portnames := (descs.map (fun d => d.name)).dedup,
    attrs := descs.map (fun d => (d.name, Attr.port (portFromOutputDescriptor task_name d))) }

/-- One record of a task batch_values list. -/
structure BatchEntry where
  name : String
  values : List PyVal

/-- The mutable state of a Task object. timeout_attr and
impersonation_attr model the _timeout and _impersonation_allowed
attributes behind the corresponding properties. -/
structure TaskState where
  name : String
  type : String
  domain : String
  timeout_attr : Option Int
  inputs : PortListState
  outputs : PortListState
  batch_values : Option (List BatchEntry)
  impersonation_attr : Option Bool

/-- The {{batch_input_<name>}} placeholder written onto a port when a
list value is assigned (braces escaped as \x7b / \x7d). -/
def batchPlaceholder (k : String) : String :=
  "\x7b\x7bbatch_input_" ++ k ++ "\x7d\x7d"

/-- Inputs.__setattr__ for a port-name write (the internal `task` and
`_portnames` branches belong to construction, which is modelled
directly by initInputs).  Branches, in source order: declared port with
an attribute (list values go through the batch machinery, everything
else is stored as the port value); multiplex-prefixed name (a new port
is created and registered); declared but attribute-less name (bootstrap
object.__setattr__, which stores the raw value; assigning .value to
such a raw non-Port value would raise, hence the error arm); otherwise
AttributeError. -/
def inputs_setattr (t : TaskState) (k : String) (v : PyVal) : Except String TaskState :=
  if k ∈ t.inputs.portnames ∧ hasattr t.inputs k = true then
    match v, getPort t.inputs k with
    | PyVal.list l, some p =>
        let pl2 := setattrObj t.inputs k (Attr.port { p with value := PyVal.str (batchPlaceholder k) })
        let t2 := { t with inputs := pl2 }
        let bv := match t2.batch_values with
          | some (e :: es) => e :: es
          | _ => []
        let entry : BatchEntry := { name := "batch_input_" ++ k, values := l }
        Except.ok { t2 with batch_values := some (bv ++ [entry]) }
    | w, some p =>
        Except.ok { t with inputs := setattrObj t.inputs k (Attr.port { p with value := w }) }
    | _, Option.none => Except.error "AttributeError"
  else
    match get_matching_multiplex_port t.inputs k with
    | some mp =>
        let newPort : Port :=
          { name := k, type := mp.type, required := mp.required,
            description := mp.description, value := v }
        Except.ok { t with inputs := addPortname (setattrObj t.inputs k (Attr.port newPort)) k }
    | Option.none =>
        if k ∈ t.inputs.portnames then
          Except.ok { t with inputs := setattrObj t.inputs k (Attr.raw v) }
        else
          Except.error ("Task has no input port named " ++ k ++ ".")

/-- Outputs.__getattribute__ for a port name: a registered name is
looked up directly; an unregistered name matching a multiplex prefix
lazily materializes a new output port (note: the new Port object is
given mp_port.name, the parent multiplex name, while being registered
under k) and returns it; otherwise the plain lookup (None models
AttributeError). -/
def outputs_getattribute (o : PortListState) (task_name : String) (k : String) :
    PortListState × Option Attr :=
  if k ∈ o.portnames then (o, alookup k o.attrs)
  else
    match get_matching_multiplex_port o k with
    | some mp =>
        let newPort : Port :=
          { name := mp.name, type := mp.type, required := mp.required,
            description := mp.description,
            value := PyVal.str ("source:" ++ task_name ++ ":" ++ k),
            is_input_port := false, is_multiplex := false }
        let o2 := addPortname (setattrObj o k (Attr.port newPort)) k
        (o2, alookup k o2.attrs)
    | Option.none => (o, alookup k o.attrs)

/-- The registry definition consumed by Task.__init__: the two
descriptor lists, containerDescriptors[0].properties.get("domain") and
properties.get("timeout"). -/
structure TaskDefinition where
  inputPortDescriptors : List PortDescriptor
  outputPortDescriptors : List PortDescriptor
  containerDomain : Option String := Option.none
  propertiesTimeout : Option Int := Option.none

/-- Task name construction: type + "_" + first 8 uuid characters, with
every colon replaced by an underscore. -/
def mkTaskName (ttype uuid8 : String) : String :=
  pyReplace (ttype ++ "_" ++ uuid8) ":" "_"

/-- The TaskState right after the field assignments of Task.__init__,
before the kwargs are applied. -/
def task_init_state (ttype : String) (defn : TaskDefinition) (uuid8 : String) : TaskState :=
  let nm := mkTaskName ttype uuid8
  { name := nm,
    type := ttype,
    domain := defn.containerDomain.getD "default",
    timeout_attr := defn.propertiesTimeout,
    inputs := initInputs defn.inputPortDescriptors,
    outputs := initOutputs defn.outputPortDescriptors nm,
    batch_values := Option.none,
    impersonation_attr := Option.none }

/-- An argument to Task.set: either a raw value or a Port object (the
latter is what taskA.outputs.y evaluates to). -/
inductive SetArg where
  | val (v : PyVal)
  | port (p : Port)

/-- Task.set unwrapping: if the argument exposes .value (a Port), use
that; else the raw value. -/
def unwrapArg : SetArg → PyVal
  | SetArg.val v => v
  | SetArg.port p => p.value

/-- Task.set(**kwargs): each key/value is unwrapped and delegated to
Inputs.__setattr__. -/
def task_set (t : TaskState) (kwargs : List (String × SetArg)) : Except String TaskState :=
  kwargs.foldlM (fun acc kv => inputs_setattr acc kv.1 (unwrapArg kv.2)) t

/-- Task.__init__ (the registry lookup is passed in as defn, the random
uuid prefix as uuid8): build the initial state, then apply the kwargs
through Task.set. -/
def task_init (ttype : String) (defn : TaskDefinition) (uuid8 : String)
    (kwargs : List (String × SetArg)) : Except String TaskState :=
  task_set (task_init_state ttype defn uuid8) kwargs

/-- Task.timeout setter: rejects any value outside the open interval
(0, 172800) with a ValueError. -/
def timeout_set (t : TaskState) (v : Int) : Except String TaskState :=
  if 0 < v ∧ v < 172800 then Except.ok { t with timeout_attr := some v }
  else Except.error ("timeout of " ++ toString v ++ " is not a valid number")

/-- Task.impersonation_allowed setter: only the exact boolean True is
stored; any other value leaves the attribute unchanged. -/
def impersonation_allowed_set (t : TaskState) (v : PyVal) : TaskState :=
  match v with
  | PyVal.bool true => { t with impersonation_attr := some true }
  | _ => t

/-- The persist property setter: a silent no-op on input ports. -/
def persistTrue (p : Port) : Port :=
  if p.is_input_port then p else { p with persist_attr := some true }

/-- The persist_location property setter, applied only when the
location is truthy; a silent no-op on input ports. -/
def persistLoc (p : Port) (location : Option String) : Port :=
  match location with
  | some loc =>
      if loc.isEmpty then p
      else if p.is_input_port then p
      else { p with persist_location_attr := some loc }
  | Option.none => p

/-- Workflow.savedata(output, location): the port is obtained from the
task outputs (possibly lazily materialized) and its persist flag set;
the location is stored when truthy. -/
def savedata_port (t : TaskState) (portname : String) (location : Option String) : TaskState :=
  match (outputs_getattribute t.outputs t.name portname).2 with
  | some (Attr.port p) =>
      let newOutputs := setattrObj (outputs_getattribute t.outputs t.name portname).1 portname
        (Attr.port (persistLoc (persistTrue p) location))
      { t with outputs := newOutputs }
  | _ => { t with outputs := (outputs_getattribute t.outputs t.name portname).1 }

/-- One element of the serialized inputs list of a task: either a
source reference entry or a value entry. -/
inductive InputEntry where
  | source (name : String) (src : String)
  | value (name : String) (v : PyVal)

/-- The name field of a serialized input entry. -/
def InputEntry.name : InputEntry → String
  | InputEntry.source n _ => n
  | InputEntry.value n _ => n

/-- The serialization of one input port value, following the branch
order of Task.generate_task_workflow_json: unset (None) ports produce
no entry; booleans are first rewritten to the strings "true"/"false"
(which never start with "source:"); a string starting with "source:"
becomes a source entry with str.replace("source:", "") applied (all
occurrences removed); everything else becomes a value entry.  A str()
of an int or a list never starts with "source:" (they start with a
digit, a minus sign, or a bracket), so those fall to the value arm. -/
def serializeInputEntry (n : String) (v : PyVal) : Option InputEntry :=
  match v with
  | PyVal.none => Option.none
  | PyVal.bool b => some (InputEntry.value n (PyVal.str (if b then "true" else "false")))
  | PyVal.str s =>
      if pyStartsWith s "source:" then some (InputEntry.source n (pyReplace s "source:" ""))
      else some (InputEntry.value n (PyVal.str s))
  | PyVal.int m => some (InputEntry.value n (PyVal.int m))
  | PyVal.list l => some (InputEntry.value n (PyVal.list l))

/-- One element of the serialized outputs list of a task.  The persist
field is only ever emitted as true, so a Bool records its presence; the
persistLocation field is present when the port carries a truthy
location. -/
structure OutputEntry where
  name : String
  persist : Bool := false
  persistLocation : Option String := Option.none

/-- The serialized record of one output port. -/
def serializeOutputEntry (n : String) (p : Port) : OutputEntry :=
  { name := n,
    persist := Port.persist p,
    persistLocation :=
      match Port.persist_location p with
      | some loc => if loc.isEmpty then Option.none else some loc
      | Option.none => Option.none }

/-- The serialized task record built by
Task.generate_task_workflow_json.  impersonation_allowed records the
presence of the impersonation_allowed field (only added when the task
attribute is truthy, and then always with value True). -/
structure TaskJson where
  name : String
  outputs : List OutputEntry
  inputs : List InputEntry
  taskType : String
  timeout : Option Int
  domain : String
  impersonation_allowed : Bool

/-- Task.generate_task_workflow_json: serialize every input port with a
set value, and every output port whose name is not excluded. -/
def generate_task_workflow_json (t : TaskState)
    (output_multiplex_ports_to_exclude : List String) : TaskJson :=
  { name := t.name,
    taskType := t.type,
    timeout := t.timeout_attr,
    domain := t.domain,
    impersonation_allowed :=
      match t.impersonation_attr with
      | some true => true
      | _ => false,
    inputs := t.inputs.portnames.filterMap (fun n =>
      (getPort t.inputs n).bind (fun p => serializeInputEntry n p.value)),
    outputs := t.outputs.portnames.filterMap (fun n =>
      if n ∈ output_multiplex_ports_to_exclude then Option.none
      else (getPort t.outputs n).map (fun p => serializeOutputEntry n p)) }

/-- The state of a Workflow object.  The cached definition attribute is
not modelled: generate_workflow_description below returns the document
(or the error) directly. -/
structure WorkflowState where
  name : String
  id : Option String
  callback : Option String
  tasks : List TaskState
  batch_values : Option (List BatchEntry)

/-- Workflow.__init__: collect the batch_values of all tasks (truthy
ones only contribute, which coincides with concatenation since falsy
ones contribute nothing); the union is kept only when non-empty. -/
def workflow_init (tasks : List TaskState) (nameArg : Option String) (uuid8 : String)
    (callback : Option String) : WorkflowState :=
  let bv := concatMap (fun t =>
    match t.batch_values with
    | some l => l
    | Option.none => []) tasks
  { name := nameArg.getD uuid8,
    id := Option.none,
    callback := callback,
    tasks := tasks,
    batch_values :=
      match bv with
      | [] => Option.none
      | e :: es => some (e :: es) }

/-- The list comprehension of all input port values across all tasks of
the workflow (unset ports contribute their None value). -/
def allInputPortValues (tasks : List TaskState) : List PyVal :=
  concatMap (fun t =>
    t.inputs.portnames.filterMap (fun n => (getPort t.inputs n).map (fun p => p.value))) tasks

/-- Python membership of a string in a list of values: str equality
only ever holds against an equal str (None, bools, ints and lists never
compare equal to a str). -/
def strMemVals (s : String) (vs : List PyVal) : Bool :=
  vs.any (fun v =>
    match v with
    | PyVal.str t2 => t2 == s
    | _ => false)

/-- The multiplex output ports of task t to exclude from its serialized
record: computed only when the workflow has more than one task, as the
multiplex output port names whose forward-reference string is the value
of no input port of any task. -/
def output_multiplex_ports_to_exclude (tasks : List TaskState) (t : TaskState) : List String :=
  if 1 < tasks.length then
    (t.outputs.portnames.filter (fun n =>
        match getPort t.outputs n with
        | some p => p.is_multiplex
        | Option.none => false)).filter
      (fun p => !(strMemVals ("source:" ++ t.name ++ ":" ++ p) (allInputPortValues tasks)))
  else []

/-- The workflow document produced by
Workflow.generate_workflow_description.  batch_values and callback are
only attached when truthy. -/
structure WorkflowDefinitionJson where
  name : String
  tasks : List TaskJson
  batch_values : Option (List BatchEntry)
  callback : Option String

/-- Workflow.generate_workflow_description: error on an empty task
list, else the skeleton filled with every serialized task, each with
its exclusion set. -/
def generate_workflow_description (w : WorkflowState) :
    Except String WorkflowDefinitionJson :=
  if w.tasks.isEmpty then
    Except.error "Workflow contains no tasks, and cannot be executed."
  else
    Except.ok
      { name := w.name,
        batch_values :=
          match w.batch_values with
          | some (e :: es) => some (e :: es)
          | _ => Option.none,
        tasks := w.tasks.map (fun t =>
          generate_task_workflow_json t (output_multiplex_ports_to_exclude w.tasks t)),
        callback :=
          match w.callback with
          | some c => if c.isEmpty then Option.none else some c
          | _ => Option.none }

/-- A status record of a standard workflow: the state and event
fields. -/
structure StatusRec where
  state : String
  event : String

/-- One sub-workflow record of a batch workflow status: its optional
state field (dict.get can yield None). -/
structure BatchWorkflowRec where
  state : Option String

/-- The status record of a batch workflow. -/
structure BatchStatusRec where
  workflows : List BatchWorkflowRec

/-- One task record of a fetched workflow. -/
structure WfTaskRec where
  id : String
  taskType : String
  name : String

/-- A fetched workflow record. -/
structure WfGetRec where
  tasks : List WfTaskRec

/-- The remote workflow execution service, as an oracle: each field
models one endpoint. -/
structure Remote where
  launch : WorkflowDefinitionJson → String
  launch_batch_workflow : WorkflowDefinitionJson → String
  statusOf : String → StatusRec
  batch_workflow_status : String → BatchStatusRec
  getWf : String → WfGetRec
  get_stdout : String → String → String
  get_stderr : String → String → String
  eventsOf : String → List String

/-- Python truthiness of the workflow id (unset or empty is falsy). -/
def pyTruthyId : Option String → Bool
  | some s => !s.isEmpty
  | Option.none => false

/-- Python truthiness of a batch_values attribute. -/
def pyTruthyBatch : Option (List BatchEntry) → Bool
  | some (_ :: _) => true
  | _ => false

/-- The id string handed to the remote endpoints. -/
def wfIdStr (w : WorkflowState) : String := w.id.getD ""

/-- The result of Workflow.status: a standard or a batch status
record. -/
inductive StatusResult where
  | std (s : StatusRec)
  | batch (b : BatchStatusRec)

/-- Workflow.status. -/
def workflow_status (r : Remote) (w : WorkflowState) : Except String StatusResult :=
  if pyTruthyId w.id = false then
    Except.error "Workflow is not running.  Cannot check status."
  else if pyTruthyBatch w.batch_values then
    Except.ok (StatusResult.batch (r.batch_workflow_status (wfIdStr w)))
  else
    Except.ok (StatusResult.std (r.statusOf (wfIdStr w)))

/-- Workflow.cancel (the remote cancellation side effect has no
client-visible result). -/
def workflow_cancel (_r : Remote) (w : WorkflowState) : Except String Unit :=
  if pyTruthyId w.id = false then
    Except.error "Workflow is not running.  Cannot cancel."
  else Except.ok ()

/-- Workflow.task_ids. -/
def workflow_task_ids (r : Remote) (w : WorkflowState) : Except String (List String) :=
  if pyTruthyId w.id = false then
    Except.error "Workflow is not running.  Cannot get task IDs."
  else if pyTruthyBatch w.batch_values then
    Except.error "Query Each Workflow Id within the Batch Workflow for task IDs."
  else Except.ok ((r.getWf (wfIdStr w)).tasks.map (fun tk => tk.id))

/-- Workflow.events (the event payload is opaque here). -/
def workflow_events (r : Remote) (w : WorkflowState) : Except String (List String) :=
  if pyTruthyId w.id = false then
    Except.error "Workflow is not running.  Cannot check status."
  else if pyTruthyBatch w.batch_values then
    Except.error "Query Each Workflow Id within the Batch Workflow for Events"
  else Except.ok (r.eventsOf (wfIdStr w))

/-- One record of the stdout/stderr listings. -/
structure LogRec where
  id : String
  taskType : String
  name : String
  content : String

/-- Workflow.stdout. -/
def workflow_stdout (r : Remote) (w : WorkflowState) : Except String (List LogRec) :=
  if pyTruthyId w.id = false then
    Except.error "Workflow is not running.  Cannot get stdout."
  else if pyTruthyBatch w.batch_values then
    Except.error "Query Each Workflow Id within the Batch Workflow for stdout."
  else
    Except.ok ((r.getWf (wfIdStr w)).tasks.map (fun tk =>
      { id := tk.id, taskType := tk.taskType, name := tk.name,
        content := r.get_stdout (wfIdStr w) tk.id }))

/-- Workflow.stderr. -/
def workflow_stderr (r : Remote) (w : WorkflowState) : Except String (List LogRec) :=
  if pyTruthyId w.id = false then
    Except.error "Workflow is not running.  Cannot get stderr."
  else if pyTruthyBatch w.batch_values then
    Except.error "Query Each Workflow Id within the Batch Workflow for stderr."
  else
    Except.ok ((r.getWf (wfIdStr w)).tasks.map (fun tk =>
      { id := tk.id, taskType := tk.taskType, name := tk.name,
        content := r.get_stderr (wfIdStr w) tk.id }))

/-- Python membership of an optional state in a string list (None is
a member of nothing). -/
def stateIn (s : Option String) (l : List String) : Bool :=
  match s with
  | some st => l.contains st
  | Option.none => false

/-- The not-implemented-for-batch message shared by the per-state
predicates. -/
def batchStateMsg : String :=
  "Query Each Workflow Id within the Batch Workflow for Current State"

/-- Workflow.complete. -/
def workflow_complete (r : Remote) (w : WorkflowState) : Except String Bool :=
  if pyTruthyId w.id = false then Except.ok false
  else if pyTruthyBatch w.batch_values then
    Except.ok ((r.batch_workflow_status (wfIdStr w)).workflows.all (fun wf =>
      stateIn wf.state ["succeeded", "failed", "timedout"]))
  else Except.ok ((r.statusOf (wfIdStr w)).state == "complete")

/-- Workflow.succeeded. -/
def workflow_succeeded (r : Remote) (w : WorkflowState) : Except String Bool :=
  if pyTruthyId w.id = false then Except.ok false
  else if pyTruthyBatch w.batch_values then
    Except.ok ((r.batch_workflow_status (wfIdStr w)).workflows.all (fun wf =>
      stateIn wf.state ["succeeded"]))
  else
    let st := r.statusOf (wfIdStr w)
    Except.ok (st.state == "complete" && st.event == "succeeded")

/-- Workflow.running. -/
def workflow_running (r : Remote) (w : WorkflowState) : Except String Bool :=
  if pyTruthyId w.id = false then Except.ok false
  else if pyTruthyBatch w.batch_values then
    Except.ok ((r.batch_workflow_status (wfIdStr w)).workflows.any (fun wf =>
      !(stateIn wf.state ["succeeded", "failed", "timedout"])))
  else
    let st := r.statusOf (wfIdStr w)
    Except.ok (st.state == "running" && st.event == "started")

/-- Workflow.failed. -/
def workflow_failed (r : Remote) (w : WorkflowState) : Except String Bool :=
  if pyTruthyId w.id = false then Except.ok false
  else if pyTruthyBatch w.batch_values then Except.error batchStateMsg
  else
    let st := r.statusOf (wfIdStr w)
    Except.ok (st.state == "complete" && st.event == "failed")

/-- Workflow.canceled. -/
def workflow_canceled (r : Remote) (w : WorkflowState) : Except String Bool :=
  if pyTruthyId w.id = false then Except.ok false
  else if pyTruthyBatch w.batch_values then Except.error batchStateMsg
  else
    let st := r.statusOf (wfIdStr w)
    Except.ok (st.state == "complete" && st.event == "canceled")

/-- Workflow.timedout. -/
def workflow_timedout (r : Remote) (w : WorkflowState) : Except String Bool :=
  if pyTruthyId w.id = false then Except.ok false
  else if pyTruthyBatch w.batch_values then Except.error batchStateMsg
  else
    let st := r.statusOf (wfIdStr w)
    Except.ok (st.state == "complete" && st.event == "timedout")

/-- Workflow.scheduling. -/
def workflow_scheduling (r : Remote) (w : WorkflowState) : Except String Bool :=
  if pyTruthyId w.id = false then Except.ok false
  else if pyTruthyBatch w.batch_values then Except.error batchStateMsg
  else
    let st := r.statusOf (wfIdStr w)
    Except.ok (st.event == "scheduled" && ["pending", "running"].contains st.state)

/-- Workflow.rescheduling. -/
def workflow_rescheduling (r : Remote) (w : WorkflowState) : Except String Bool :=
  if pyTruthyId w.id = false then Except.ok false
  else if pyTruthyBatch w.batch_values then Except.error batchStateMsg
  else
    let st := r.statusOf (wfIdStr w)
    Except.ok (st.event == "rescheduling" && ["pending", "running"].contains st.state)

/-- Workflow.waiting. -/
def workflow_waiting (r : Remote) (w : WorkflowState) : Except String Bool :=
  if pyTruthyId w.id = false then Except.ok false
  else if pyTruthyBatch w.batch_values then Except.error batchStateMsg
  else
    let st := r.statusOf (wfIdStr w)
    Except.ok (st.event == "waiting" && ["pending", "running"].contains st.state)

/-- Workflow.submitting. -/
def workflow_submitting (r : Remote) (w : WorkflowState) : Except String Bool :=
  if pyTruthyId w.id = false then Except.ok false
  else if pyTruthyBatch w.batch_values then Except.error batchStateMsg
  else
    let st := r.statusOf (wfIdStr w)
    Except.ok (st.event == "submitting" && ["pending", "running"].contains st.state)

/-- Workflow.execute: generate the document (propagating its error),
submit it to the batch or standard endpoint, and record the returned
id. -/
def workflow_execute (r : Remote) (w : WorkflowState) :
    Except String (WorkflowState × String) :=
  match generate_workflow_description w with
  | Except.error e => Except.error e
  | Except.ok defn =>
      let wid :=
        if pyTruthyBatch w.batch_values then r.launch_batch_workflow defn
        else r.launch defn
      Except.ok ({ w with id := some wid }, wid)

/-! Helper lemmas about the string primitives. -/

theorem isPrefixOf_iff_exists (l1 : List Char) :
    ∀ l2 : List Char, l1.isPrefixOf l2 = true ↔ ∃ t, l1 ++ t = l2 := by
  induction l1 with
  | nil => intro l2; simp [List.isPrefixOf]
  | cons a as ih =>
    intro l2
    cases l2 with
    | nil => simp [List.isPrefixOf]
    | cons b bs =>
      simp only [List.isPrefixOf, Bool.and_eq_true, beq_iff_eq, ih bs]
      constructor
      · rintro ⟨hab, t, ht⟩
        exact ⟨t, by simp [hab, ht]⟩
      · rintro ⟨t, ht⟩
        injection ht with h1 h2
        exact ⟨h1, t, h2⟩

theorem isPrefixOf_self (l : List Char) : l.isPrefixOf l = true :=
  (isPrefixOf_iff_exists l l).mpr ⟨[], List.append_nil l⟩

theorem isPrefixOf_trans {a b c : List Char} (h1 : a.isPrefixOf b = true)
    (h2 : b.isPrefixOf c = true) : a.isPrefixOf c = true := by
  obtain ⟨t1, ht1⟩ := (isPrefixOf_iff_exists a b).mp h1
  obtain ⟨t2, ht2⟩ := (isPrefixOf_iff_exists b c).mp h2
  exact (isPrefixOf_iff_exists a c).mpr ⟨t1 ++ t2, by rw [← List.append_assoc, ht1, ht2]⟩

theorem hasSubstr_iff (pat : List Char) :
    ∀ s : List Char, hasSubstr s pat = true ↔ ∃ l r, l ++ (pat ++ r) = s := by
  intro s
  induction s with
  | nil =>
    simp only [hasSubstr, List.isEmpty_iff]
    constructor
    · intro h
      exact ⟨[], [], by simp [h]⟩
    · rintro ⟨l, r, h⟩
      exact (List.append_eq_nil.mp (List.append_eq_nil.mp h).2).1
  | cons c cs ih =>
    simp only [hasSubstr, Bool.or_eq_true, ih, isPrefixOf_iff_exists]
    constructor
    · rintro (⟨t, ht⟩ | ⟨l, r, h⟩)
      · exact ⟨[], t, by simp [ht]⟩
      · exact ⟨c :: l, r, by simp [h]⟩
    · rintro ⟨l, r, h⟩
      cases l with
      | nil => exact Or.inl ⟨r, by simpa using h⟩
      | cons x xs =>
        injection h with h1 h2
        exact Or.inr ⟨xs, r, h2⟩

theorem replGo_noSub (pat repl : List Char) :
    ∀ (s : List Char) (fuel : Nat), hasSubstr s pat = false → replGo pat repl fuel s = s := by
  intro s
  induction s with
  | nil => intro fuel _; cases fuel <;> rfl
  | cons c cs ih =>
    intro fuel h
    rw [hasSubstr] at h
    rw [Bool.or_eq_false_iff] at h
    cases fuel with
    | zero => rfl
    | succ f =>
      rw [replGo]
      rw [if_neg (by simp [h.1])]
      rw [ih f h.2]

theorem replGo_strip (pat rest : List Char) (hp : pat ≠ [])
    (h : hasSubstr rest pat = false) :
    replGo pat [] ((pat ++ rest).length) (pat ++ rest) = rest := by
  cases pat with
  | nil => exact absurd rfl hp
  | cons pc pt =>
    have hstep : (pc :: pt) ++ rest = pc :: (pt ++ rest) := rfl
    rw [hstep]
    have hlen : (pc :: (pt ++ rest)).length = (pt ++ rest).length + 1 := by
      simp [List.length_cons]
    rw [hlen, replGo]
    rw [if_pos ⟨by simp, (isPrefixOf_iff_exists _ _).mpr ⟨rest, rfl⟩⟩]
    have hdrop : (pc :: (pt ++ rest)).drop (pc :: pt).length = rest := by
      simp only [List.length_cons, List.drop_succ_cons]
      exact List.drop_left pt rest
    rw [hdrop, replGo_noSub (pc :: pt) [] rest _ h]
    simp

theorem pyReplace_strip (pre rest : String) (hp : pre.data ≠ [])
    (h : hasSubstr rest.data pre.data = false) :
    pyReplace (pre ++ rest) pre "" = rest := by
  unfold pyReplace
  have hd : (pre ++ rest).data = pre.data ++ rest.data := String.data_append pre rest
  have he : ("" : String).data = [] := rfl
  rw [hd, he, replGo_strip pre.data rest.data hp h]

theorem split_at_unique {α : Type} [DecidableEq α] (c : α) :
    ∀ (xs xs2 ys ys2 : List α), xs ++ c :: ys = xs2 ++ c :: ys2 →
      c ∉ xs → c ∉ xs2 → xs = xs2 ∧ ys = ys2 := by
  intro xs
  induction xs with
  | nil =>
    intro xs2 ys ys2 h h1 h2
    cases xs2 with
    | nil =>
      simp only [List.nil_append] at h
      injection h with _ hb
      exact ⟨rfl, hb⟩
    | cons a as =>
      simp only [List.nil_append, List.cons_append] at h
      injection h with ha _
      exact absurd (ha ▸ List.mem_cons_self a as) h2
  | cons x xt ih =>
    intro xs2 ys ys2 h h1 h2
    cases xs2 with
    | nil =>
      simp only [List.cons_append, List.nil_append] at h
      injection h with ha _
      exact absurd (ha.symm ▸ List.mem_cons_self x xt) h1
    | cons y yt =>
      simp only [List.cons_append] at h
      injection h with hxy hrest
      have hr := ih yt ys ys2 hrest
        (fun hm => h1 (List.mem_cons_of_mem x hm))
        (fun hm => h2 (List.mem_cons_of_mem y hm))
      exact ⟨by rw [hxy, hr.1], hr.2⟩

theorem noSub_around_colon (n y src : List Char)
    (hn : ':' ∉ n) (hy : ':' ∉ y) (hsrc : ':' ∉ src)
    (hns : ∀ t2 : List Char, n ≠ t2 ++ src) :
    hasSubstr (n ++ ':' :: y) (src ++ [':']) = false := by
  cases hcase : hasSubstr (n ++ ':' :: y) (src ++ [':']) with
  | false => rfl
  | true =>
    exfalso
    obtain ⟨l, r, heq⟩ := (hasSubstr_iff (src ++ [':']) (n ++ ':' :: y)).mp hcase
    have heq2 : (l ++ src) ++ ':' :: r = n ++ ':' :: y := by
      rw [← heq]
      simp [List.append_assoc]
    have hcount := congrArg (List.count ':') heq2
    have hn0 : n.count ':' = 0 := List.count_eq_zero.mpr hn
    have hy0 : y.count ':' = 0 := List.count_eq_zero.mpr hy
    have hs0 : src.count ':' = 0 := List.count_eq_zero.mpr hsrc
    simp only [List.count_append, List.count_cons] at hcount
    simp [hn0, hy0, hs0] at hcount
    have hl0 : l.count ':' = 0 := by omega
    have hlmem : ':' ∉ l := List.count_eq_zero.mp hl0
    have hlsrc : ':' ∉ l ++ src := by
      intro hm
      rcases List.mem_append.mp hm with hm1 | hm2
      · exact hlmem hm1
      · exact hsrc hm2
    obtain ⟨hsplit, _⟩ := split_at_unique ':' (l ++ src) n r y heq2 hlsrc hn
    exact hns l hsplit.symm

theorem endsWithL_iff (s suf : List Char) :
    endsWithL s suf = true ↔ ∃ t, t ++ suf = s := by
  unfold endsWithL
  rw [beq_iff_eq]
  constructor
  · intro h
    refine ⟨s.take (s.length - suf.length), ?_⟩
    conv_rhs => rw [← List.take_append_drop (s.length - suf.length) s]
    rw [h]
  · rintro ⟨t, rfl⟩
    have hlen : (t ++ suf).length - suf.length = t.length := by
      simp [List.length_append]
    rw [hlen, List.drop_left]

/-! Helper lemmas about the attribute dictionary and port lists. -/

theorem alookup_updateAttr_self (k : String) (a : Attr) :
    ∀ l, alookup k (updateAttr k a l) = some a := by
  intro l
  induction l with
  | nil => simp [updateAttr, alookup]
  | cons kv rest ih =>
    obtain ⟨k2, a2⟩ := kv
    by_cases h : k2 = k
    · simp [updateAttr, h, alookup]
    · simp [updateAttr, h, alookup, ih]

theorem alookup_updateAttr_ne (k n : String) (a : Attr) (hne : n ≠ k) :
    ∀ l, alookup n (updateAttr k a l) = alookup n l := by
  have hkn : ¬ (k = n) := fun h => hne h.symm
  intro l
  induction l with
  | nil => simp [updateAttr, alookup, hkn]
  | cons kv rest ih =>
    obtain ⟨k2, a2⟩ := kv
    by_cases h : k2 = k
    · subst h
      simp [updateAttr, alookup, hkn, ih]
    · simp [updateAttr, h, alookup, ih]

theorem getPort_setattr_self (pl : PortListState) (k : String) (p : Port) :
    getPort (setattrObj pl k (Attr.port p)) k = some p := by
  simp [getPort, setattrObj, alookup_updateAttr_self]

theorem getPort_setattr_ne (pl : PortListState) (k n : String) (a : Attr) (hne : n ≠ k) :
    getPort (setattrObj pl k a) n = getPort pl n := by
  simp [getPort, setattrObj, alookup_updateAttr_ne k n a hne]

theorem portnames_setattr (pl : PortListState) (k : String) (a : Attr) :
    (setattrObj pl k a).portnames = pl.portnames := rfl

theorem mem_addPortname (pl : PortListState) (k n : String) :
    n ∈ (addPortname pl k).portnames ↔ n ∈ pl.portnames ∨ n = k := by
  by_cases hk : k ∈ pl.portnames
  · simp only [addPortname, if_pos hk]
    constructor
    · exact Or.inl
    · rintro (h | rfl)
      · exact h
      · exact hk
  · simp [addPortname, if_neg hk]

theorem getPort_addPortname (pl : PortListState) (k n : String) :
    getPort (addPortname pl k) n = getPort pl n := by
  unfold addPortname
  split <;> rfl

theorem hasattr_of_getPort {pl : PortListState} {k : String} {p : Port}
    (h : getPort pl k = some p) : hasattr pl k = true := by
  unfold getPort at h
  unfold hasattr
  cases halk : alookup k pl.attrs with
  | none => rw [halk] at h; exact absurd h (by simp)
  | some a => simp [halk]

theorem alookup_initAttrs (f : PortDescriptor → Port) (n : String) :
    ∀ descs : List PortDescriptor, n ∈ descs.map (fun d => d.name) →
      ∃ d : PortDescriptor, d.name = n ∧
        alookup n (descs.map (fun d => (d.name, Attr.port (f d)))) = some (Attr.port (f d)) := by
  intro descs
  induction descs with
  | nil => simp
  | cons d rest ih =>
    intro hmem
    by_cases h : d.name = n
    · exact ⟨d, h, by simp [alookup, h]⟩
    · have hmem2 : n ∈ rest.map (fun d => d.name) := by
        rcases List.mem_cons.mp hmem with h1 | h1
        · exact absurd h1.symm h
        · exact h1
      obtain ⟨d2, hd2, hlk⟩ := ih hmem2
      exact ⟨d2, hd2, by simp [alookup, h, hlk]⟩

theorem gmmp_spec {pl : PortListState} {n : String} {mp : Port}
    (h : get_matching_multiplex_port pl n = some mp) :
    ∃ p, p ∈ pl.portnames ∧ pyStartsWith n p = true ∧ n ≠ p ∧
      getPort pl p = some mp ∧ mp.is_multiplex = true := by
  unfold get_matching_multiplex_port at h
  cases hhead : (pl.portnames.filter (fun p =>
      pyStartsWith n p && (n != p) && hasattr pl p &&
      (match getPort pl p with
       | some q => q.is_multiplex
       | Option.none => false))).head? with
  | none => rw [hhead] at h; simp at h
  | some p0 =>
    rw [hhead] at h
    simp only [Option.some_bind] at h
    have hp0 : p0 ∈ pl.portnames.filter (fun p =>
        pyStartsWith n p && (n != p) && hasattr pl p &&
        (match getPort pl p with
         | some q => q.is_multiplex
         | Option.none => false)) := by
      cases hfl : (pl.portnames.filter (fun p =>
          pyStartsWith n p && (n != p) && hasattr pl p &&
          (match getPort pl p with
           | some q => q.is_multiplex
           | Option.none => false))) with
      | nil => rw [hfl] at hhead; exact absurd hhead (by simp)
      | cons a as =>
        rw [hfl] at hhead
        simp only [List.head?] at hhead
        injection hhead with ha
        subst ha
        exact List.mem_cons_self a as
    obtain ⟨hmem, hcond⟩ := List.mem_filter.mp hp0
    simp only [Bool.and_eq_true] at hcond
    obtain ⟨⟨⟨hsw, hne⟩, _⟩, hmx⟩ := hcond
    rw [h] at hmx
    exact ⟨p0, hmem, hsw, by simpa using hne, h, hmx⟩

/-! The portname registration invariant (C6). -/

/-- Every registered input port name is bound to exactly one Port whose
name field equals the registered name. -/
def inputsNamesOk (pl : PortListState) : Bool :=
  pl.portnames.all (fun n =>
    match getPort pl n with
    | some p => p.name == n
    | Option.none => false)

/-- Every registered output port name is bound to exactly one Port
whose name field is a prefix of the registered name (equal for eagerly
declared ports, the parent multiplex name for lazily created ones). -/
def outputsNamesOk (pl : PortListState) : Bool :=
  pl.portnames.all (fun n =>
    match getPort pl n with
    | some p => p.name.data.isPrefixOf n.data
    | Option.none => false)

theorem inputsNamesOk_iff (pl : PortListState) :
    inputsNamesOk pl = true ↔
      ∀ n ∈ pl.portnames, ∃ p, getPort pl n = some p ∧ p.name = n := by
  unfold inputsNamesOk
  rw [List.all_eq_true]
  constructor
  · intro h n hn
    have hb := h n hn
    cases hgp : getPort pl n with
    | none => rw [hgp] at hb; exact absurd hb (by simp)
    | some p =>
      rw [hgp] at hb
      exact ⟨p, rfl, by simpa using hb⟩
  · intro h n hn
    obtain ⟨p, hp, hname⟩ := h n hn
    rw [hp]
    simpa using hname

theorem outputsNamesOk_iff (pl : PortListState) :
    outputsNamesOk pl = true ↔
      ∀ n ∈ pl.portnames, ∃ p, getPort pl n = some p ∧ p.name.data.isPrefixOf n.data = true := by
  unfold outputsNamesOk
  rw [List.all_eq_true]
  constructor
  · intro h n hn
    have hb := h n hn
    cases hgp : getPort pl n with
    | none => rw [hgp] at hb; exact absurd hb (by simp)
    | some p =>
      rw [hgp] at hb
      exact ⟨p, rfl, hb⟩
  · intro h n hn
    obtain ⟨p, hp, hname⟩ := h n hn
    rw [hp]
    exact hname

theorem inputsNamesOk_update_value (pl : PortListState) (k : String) (p : Port) (w : PyVal)
    (hp : getPort pl k = some p) (hin : inputsNamesOk pl = true) :
    inputsNamesOk (setattrObj pl k (Attr.port { p with value := w })) = true := by
  rw [inputsNamesOk_iff] at hin ⊢
  intro n hn
  rw [portnames_setattr] at hn
  by_cases hnk : n = k
  · subst hnk
    obtain ⟨q, hq, hqn⟩ := hin n hn
    rw [hp] at hq
    injection hq with hq
    subst hq
    exact ⟨_, getPort_setattr_self pl n _, hqn⟩
  · obtain ⟨q, hq, hqn⟩ := hin n hn
    rw [getPort_setattr_ne pl k n _ hnk]
    exact ⟨q, hq, hqn⟩

theorem inputsNamesOk_new_port (pl : PortListState) (k : String) (port : Port)
    (hname : port.name = k) (hin : inputsNamesOk pl = true) :
    inputsNamesOk (addPortname (setattrObj pl k (Attr.port port)) k) = true := by
  rw [inputsNamesOk_iff] at hin ⊢
  intro n hn
  rw [mem_addPortname, portnames_setattr] at hn
  by_cases hnk : n = k
  · subst hnk
    rw [getPort_addPortname]
    exact ⟨port, getPort_setattr_self pl n port, hname⟩
  · have hn2 : n ∈ pl.portnames := by
      rcases hn with h1 | h1
      · exact h1
      · exact absurd h1 hnk
    obtain ⟨q, hq, hqn⟩ := hin n hn2
    rw [getPort_addPortname, getPort_setattr_ne pl k n _ hnk]
    exact ⟨q, hq, hqn⟩

theorem outputsNamesOk_new_port (pl : PortListState) (k : String) (port : Port)
    (hpre : port.name.data.isPrefixOf k.data = true) (hout : outputsNamesOk pl = true) :
    outputsNamesOk (addPortname (setattrObj pl k (Attr.port port)) k) = true := by
  rw [outputsNamesOk_iff] at hout ⊢
  intro n hn
  rw [mem_addPortname, portnames_setattr] at hn
  by_cases hnk : n = k
  · subst hnk
    rw [getPort_addPortname]
    exact ⟨port, getPort_setattr_self pl n port, hpre⟩
  · have hn2 : n ∈ pl.portnames := by
      rcases hn with h1 | h1
      · exact h1
      · exact absurd h1 hnk
    obtain ⟨q, hq, hqn⟩ := hout n hn2
    rw [getPort_addPortname, getPort_setattr_ne pl k n _ hnk]
    exact ⟨q, hq, hqn⟩

theorem outputsNamesOk_setattr (pl : PortListState) (k : String) (p3 : Port)
    (hout : outputsNamesOk pl = true)
    (hc : k ∈ pl.portnames → ∃ q, getPort pl k = some q ∧ p3.name = q.name) :
    outputsNamesOk (setattrObj pl k (Attr.port p3)) = true := by
  rw [outputsNamesOk_iff] at hout ⊢
  intro n hn
  rw [portnames_setattr] at hn
  by_cases hnk : n = k
  · subst hnk
    obtain ⟨q, hq, hq3⟩ := hc hn
    obtain ⟨q2, hq2, hq2n⟩ := hout n hn
    rw [hq] at hq2
    injection hq2 with hq2
    subst hq2
    exact ⟨p3, getPort_setattr_self pl n p3, by rw [hq3]; exact hq2n⟩
  · obtain ⟨q, hq, hqn⟩ := hout n hn
    rw [getPort_setattr_ne pl k n _ hnk]
    exact ⟨q, hq, hqn⟩

theorem persistTrue_name (p : Port) : (persistTrue p).name = p.name := by
  unfold persistTrue
  split <;> rfl

theorem persistLoc_name (p : Port) (loc : Option String) :
    (persistLoc p loc).name = p.name := by
  unfold persistLoc
  cases loc with
  | none => rfl
  | some l =>
    by_cases h1 : l.isEmpty
    · simp [h1]
    · by_cases h2 : p.is_input_port <;> simp [h1, h2]

theorem except_bind_ok {α β ε : Type} (a : α) (f : α → Except ε β) :
    (Except.ok a >>= f) = f a := rfl

theorem except_bind_error {α β ε : Type} (e : ε) (f : α → Except ε β) :
    ((Except.error e : Except ε α) >>= f) = Except.error e := rfl

/-- Field and invariant preservation of a successful input write. -/
theorem inputs_setattr_ok_fields (t : TaskState) (k : String) (v : PyVal) (t2 : TaskState)
    (hok : inputs_setattr t k v = Except.ok t2) (hin : inputsNamesOk t.inputs = true) :
    inputsNamesOk t2.inputs = true ∧ t2.outputs = t.outputs ∧ t2.name = t.name ∧
      t2.type = t.type ∧ t2.impersonation_attr = t.impersonation_attr ∧
      t2.timeout_attr = t.timeout_attr := by
  unfold inputs_setattr at hok
  by_cases h1 : k ∈ t.inputs.portnames ∧ hasattr t.inputs k = true
  · rw [if_pos h1] at hok
    cases hgp : getPort t.inputs k with
    | none => cases v <;> simp [hgp] at hok
    | some p =>
      cases v with
      | list l =>
        simp only [hgp] at hok
        rw [Except.ok.injEq] at hok
        subst hok
        exact ⟨inputsNamesOk_update_value t.inputs k p _ hgp hin, rfl, rfl, rfl, rfl, rfl⟩
      | none =>
        simp only [hgp] at hok
        rw [Except.ok.injEq] at hok
        subst hok
        exact ⟨inputsNamesOk_update_value t.inputs k p _ hgp hin, rfl, rfl, rfl, rfl, rfl⟩
      | bool b =>
        simp only [hgp] at hok
        rw [Except.ok.injEq] at hok
        subst hok
        exact ⟨inputsNamesOk_update_value t.inputs k p _ hgp hin, rfl, rfl, rfl, rfl, rfl⟩
      | str s =>
        simp only [hgp] at hok
        rw [Except.ok.injEq] at hok
        subst hok
        exact ⟨inputsNamesOk_update_value t.inputs k p _ hgp hin, rfl, rfl, rfl, rfl, rfl⟩
      | int m =>
        simp only [hgp] at hok
        rw [Except.ok.injEq] at hok
        subst hok
        exact ⟨inputsNamesOk_update_value t.inputs k p _ hgp hin, rfl, rfl, rfl, rfl, rfl⟩
  · rw [if_neg h1] at hok
    cases hmp : get_matching_multiplex_port t.inputs k with
    | some mp =>
      simp only [hmp] at hok
      rw [Except.ok.injEq] at hok
      subst hok
      exact ⟨inputsNamesOk_new_port t.inputs k _ rfl hin, rfl, rfl, rfl, rfl, rfl⟩
    | none =>
      simp only [hmp] at hok
      by_cases h2 : k ∈ t.inputs.portnames
      · exfalso
        rw [inputsNamesOk_iff] at hin
        obtain ⟨p, hp, _⟩ := hin k h2
        exact h1 ⟨h2, hasattr_of_getPort hp⟩
      · rw [if_neg h2] at hok
        exact absurd hok (by simp)

/-- Reading an output attribute preserves the output name
invariant. -/
theorem outputs_getattribute_fst_preserves (o : PortListState) (tn k : String)
    (hout : outputsNamesOk o = true) :
    outputsNamesOk (outputs_getattribute o tn k).1 = true := by
  unfold outputs_getattribute
  by_cases h1 : k ∈ o.portnames
  · rw [if_pos h1]
    exact hout
  · rw [if_neg h1]
    cases hmp : get_matching_multiplex_port o k with
    | none =>
      simp only [hmp]
      exact hout
    | some mp =>
      simp only [hmp]
      obtain ⟨p0, hp0mem, hsw, hne, hgp, hmx⟩ := gmmp_spec hmp
      have hout2 := hout
      rw [outputsNamesOk_iff] at hout2
      obtain ⟨q, hq, hqpre⟩ := hout2 p0 hp0mem
      rw [hgp] at hq
      injection hq with hq
      subst hq
      unfold pyStartsWith at hsw
      have hpre : mp.name.data.isPrefixOf k.data = true := isPrefixOf_trans hqpre hsw
      exact outputsNamesOk_new_port o k _ hpre hout

/-- The attribute returned by Outputs.__getattribute__ is the one bound
in the returned state. -/
theorem outputs_getattribute_snd (o : PortListState) (tn k : String) :
    (outputs_getattribute o tn k).2 = alookup k (outputs_getattribute o tn k).1.attrs := by
  unfold outputs_getattribute
  by_cases h1 : k ∈ o.portnames
  · rw [if_pos h1]
  · rw [if_neg h1]
    cases hmp : get_matching_multiplex_port o k with
    | none => simp only [hmp]
    | some mp => simp only [hmp]

theorem savedata_fields (t : TaskState) (pn : String) (loc : Option String)
    (hout : outputsNamesOk t.outputs = true) :
    outputsNamesOk (savedata_port t pn loc).outputs = true ∧
      (savedata_port t pn loc).inputs = t.inputs ∧
      (savedata_port t pn loc).name = t.name ∧
      (savedata_port t pn loc).impersonation_attr = t.impersonation_attr := by
  have ho1 := outputs_getattribute_fst_preserves t.outputs t.name pn hout
  have hsnd := outputs_getattribute_snd t.outputs t.name pn
  unfold savedata_port
  cases hr2 : (outputs_getattribute t.outputs t.name pn).2 with
  | none =>
    simp only [hr2]
    exact ⟨ho1, by trivial, by trivial, by trivial⟩
  | some att =>
    cases att with
    | raw v =>
      simp only [hr2]
      exact ⟨ho1, by trivial, by trivial, by trivial⟩
    | port p =>
      simp only [hr2]
      refine ⟨outputsNamesOk_setattr _ pn _ ho1 ?_, by trivial, by trivial, by trivial⟩
      intro hk
      have hgp : getPort (outputs_getattribute t.outputs t.name pn).1 pn = some p := by
        unfold getPort
        rw [← hsnd, hr2]
      exact ⟨p, hgp, by rw [persistLoc_name, persistTrue_name]⟩

theorem impersonation_set_fields (t : TaskState) (v : PyVal) :
    (impersonation_allowed_set t v).inputs = t.inputs ∧
      (impersonation_allowed_set t v).outputs = t.outputs := by
  unfold impersonation_allowed_set
  cases v with
  | bool b => cases b <;> exact ⟨rfl, rfl⟩
  | none => exact ⟨rfl, rfl⟩
  | str s => exact ⟨rfl, rfl⟩
  | int m => exact ⟨rfl, rfl⟩
  | list l => exact ⟨rfl, rfl⟩

theorem timeout_set_ok {t t2 : TaskState} {v : Int} (h : timeout_set t v = Except.ok t2) :
    t2 = { t with timeout_attr := some v } := by
  unfold timeout_set at h
  split at h
  · rw [Except.ok.injEq] at h
    exact h.symm
  · exact absurd h (by simp)

/-- The port name invariant holds right after PortList.__init__ for
inputs. -/
theorem initInputs_namesOk (descs : List PortDescriptor) :
    inputsNamesOk (initInputs descs) = true := by
  rw [inputsNamesOk_iff]
  intro n hn
  have hn2 : n ∈ descs.map (fun d => d.name) := by
    have : (initInputs descs).portnames = (descs.map (fun d => d.name)).dedup := rfl
    rw [this, List.mem_dedup] at hn
    exact hn
  obtain ⟨d, hd, hlk⟩ := alookup_initAttrs portFromInputDescriptor n descs hn2
  refine ⟨portFromInputDescriptor d, ?_, hd⟩
  unfold getPort initInputs
  rw [hlk]

/-- The port name invariant holds right after Outputs.__init__. -/
theorem initOutputs_namesOk (descs : List PortDescriptor) (tn : String) :
    outputsNamesOk (initOutputs descs tn) = true := by
  rw [outputsNamesOk_iff]
  intro n hn
  have hn2 : n ∈ descs.map (fun d => d.name) := by
    have : (initOutputs descs tn).portnames = (descs.map (fun d => d.name)).dedup := rfl
    rw [this, List.mem_dedup] at hn
    exact hn
  obtain ⟨d, hd, hlk⟩ := alookup_initAttrs (portFromOutputDescriptor tn) n descs hn2
  refine ⟨portFromOutputDescriptor tn d, ?_, ?_⟩
  · unfold getPort initOutputs
    rw [hlk]
  · have : (portFromOutputDescriptor tn d).name = n := hd
    rw [this]
    exact isPrefixOf_self n.data

/-- Invariant and field preservation across Task.set. -/
theorem task_set_preserves :
    ∀ (kwargs : List (String × SetArg)) (t t2 : TaskState),
      task_set t kwargs = Except.ok t2 →
      inputsNamesOk t.inputs = true → outputsNamesOk t.outputs = true →
      inputsNamesOk t2.inputs = true ∧ outputsNamesOk t2.outputs = true ∧
        t2.impersonation_attr = t.impersonation_attr ∧ t2.name = t.name ∧
        t2.type = t.type ∧ t2.timeout_attr = t.timeout_attr := by
  intro kwargs
  induction kwargs with
  | nil =>
    intro t t2 h hin hout
    unfold task_set at h
    rw [List.foldlM_nil] at h
    rw [show (pure t : Except String TaskState) = Except.ok t from rfl] at h
    rw [Except.ok.injEq] at h
    subst h
    exact ⟨hin, hout, rfl, rfl, rfl, rfl⟩
  | cons kv rest ih =>
    intro t t2 h hin hout
    unfold task_set at h
    rw [List.foldlM_cons] at h
    cases hstep : inputs_setattr t kv.1 (unwrapArg kv.2) with
    | error e =>
      rw [hstep, except_bind_error] at h
      exact absurd h (by simp)
    | ok t1 =>
      rw [hstep, except_bind_ok] at h
      obtain ⟨hin1, houteq, hname1, htype1, himp1, htm1⟩ :=
        inputs_setattr_ok_fields t kv.1 (unwrapArg kv.2) t1 hstep hin
      obtain ⟨hin2, hout2, himp2, hname2, htype2, htm2⟩ :=
        ih t1 t2 h hin1 (by rw [houteq]; exact hout)
      exact ⟨hin2, hout2, himp2.trans himp1, hname2.trans hname1,
        htype2.trans htype1, htm2.trans htm1⟩

/-- One state transition of a Task object: an input port write, an
output port read (which may lazily materialize a port), a timeout
assignment, an impersonation assignment, or a savedata call. -/
inductive TaskStep : TaskState → TaskState → Prop where
  | setInput (k : String) (v : PyVal) (t t2 : TaskState) :
      inputs_setattr t k v = Except.ok t2 → TaskStep t t2
  | readOutput (k : String) (t : TaskState) :
      TaskStep t { t with outputs := (outputs_getattribute t.outputs t.name k).1 }
  | setTimeout (v : Int) (t t2 : TaskState) :
      timeout_set t v = Except.ok t2 → TaskStep t t2
  | setImpersonation (v : PyVal) (t : TaskState) :
      TaskStep t (impersonation_allowed_set t v)
  | save (pn : String) (loc : Option String) (t : TaskState) :
      TaskStep t (savedata_port t pn loc)

/-- The task states reachable through the public API: a successful
Task.__init__ followed by any sequence of steps. -/
inductive TaskReachable : TaskState → Prop where
  | init (ttype : String) (defn : TaskDefinition) (uuid8 : String)
      (kwargs : List (String × SetArg)) (t : TaskState) :
      task_init ttype defn uuid8 kwargs = Except.ok t → TaskReachable t
  | step (t t2 : TaskState) : TaskReachable t → TaskStep t t2 → TaskReachable t2

/-- C6 (amended): in every task state reachable through the public API
(construction, port writes, port reads, timeout/impersonation
assignments, savedata), every name registered in the Inputs portnames
set is bound to exactly one Port whose name attribute equals the
registered name (including lazily materialized multiplex input ports);
every name registered in the Outputs portnames set is bound to exactly
one Port whose name attribute is a prefix of the registered name — the
registered name itself for eagerly declared ports, but the parent
multiplex port name for an output port lazily materialized on read. -/
theorem c6_portname_registration (t : TaskState) (h : TaskReachable t) :
    inputsNamesOk t.inputs = true ∧ outputsNamesOk t.outputs = true := by
  induction h with
  | init ttype defn uuid8 kwargs t0 hinit =>
    unfold task_init at hinit
    exact
      have hres := task_set_preserves kwargs (task_init_state ttype defn uuid8) t0 hinit
        (initInputs_namesOk defn.inputPortDescriptors)
        (initOutputs_namesOk defn.outputPortDescriptors (mkTaskName ttype uuid8))
      ⟨hres.1, hres.2.1⟩
  | step t1 t2 hr hstep ih =>
    obtain ⟨hin, hout⟩ := ih
    cases hstep with
    | setInput k v _ _ hok =>
      obtain ⟨hin2, houteq, _, _, _, _⟩ := inputs_setattr_ok_fields t1 k v t2 hok hin
      exact ⟨hin2, by rw [houteq]; exact hout⟩
    | readOutput k _ =>
      exact ⟨hin, outputs_getattribute_fst_preserves t1.outputs t1.name k hout⟩
    | setTimeout v _ _ hok =>
      rw [timeout_set_ok hok]
      exact ⟨hin, hout⟩
    | setImpersonation v _ =>
      obtain ⟨h1, h2⟩ := impersonation_set_fields t1 v
      exact ⟨by rw [h1]; exact hin, by rw [h2]; exact hout⟩
    | save pn loc _ =>
      obtain ⟨h1, h2, _, _⟩ := savedata_fields t1 pn loc hout
      exact ⟨by rw [h2]; exact hin, h1⟩

/-- A task definition with one multiplex output port family, used to
exhibit the lazily-materialized output port naming. -/
def c6CexDefn : TaskDefinition :=
  { inputPortDescriptors := [],
    outputPortDescriptors := [{ name := "data", type := "directory", multiplex := some true }] }

/-- The task right after construction. -/
def c6CexTask : TaskState := task_init_state "A" c6CexDefn "12ab34cd"

/-- The task after reading outputs.data1 (a multiplex child). -/
def c6CexTask2 : TaskState :=
  { c6CexTask with outputs := (outputs_getattribute c6CexTask.outputs c6CexTask.name "data1").1 }

/-- C6 counterexample: reading the multiplex child output data1
registers the name data1 but binds it to a Port whose name attribute is
the parent name data, so the claimed matching-name invariant fails in a
reachable state. -/
theorem c6_counterexample :
    TaskReachable c6CexTask2 ∧
      "data1" ∈ c6CexTask2.outputs.portnames ∧
      portNameAt c6CexTask2.outputs "data1" = some "data" ∧
      portNameAt c6CexTask2.outputs "data1" ≠ some "data1" :=
  ⟨TaskReachable.step c6CexTask c6CexTask2
      (TaskReachable.init "A" c6CexDefn "12ab34cd" [] c6CexTask rfl)
      (TaskStep.readOutput "data1" c6CexTask),
    by decide, by decide, by decide⟩

/-- Witness instantiating the amended C6 theorem at a concrete
reachable state. -/
theorem c6_witness :
    inputsNamesOk c6CexTask2.inputs = true ∧ outputsNamesOk c6CexTask2.outputs = true :=
  c6_portname_registration c6CexTask2
    (TaskReachable.step c6CexTask c6CexTask2
      (TaskReachable.init "A" c6CexDefn "12ab34cd" [] c6CexTask rfl)
      (TaskStep.readOutput "data1" c6CexTask))

/-! Input serialization characterization (C2, C3, C4, C7). -/

theorem serializeInputEntry_name {n : String} {v : PyVal} {e : InputEntry}
    (h : serializeInputEntry n v = some e) : InputEntry.name e = n := by
  cases v with
  | none => simp [serializeInputEntry] at h
  | bool b =>
    simp only [serializeInputEntry, Option.some.injEq] at h
    rw [← h]
    rfl
  | str s =>
    simp only [serializeInputEntry] at h
    by_cases hsw : pyStartsWith s "source:" = true
    · rw [if_pos hsw, Option.some.injEq] at h
      rw [← h]
      rfl
    · rw [if_neg hsw, Option.some.injEq] at h
      rw [← h]
      rfl
  | int m =>
    simp only [serializeInputEntry, Option.some.injEq] at h
    rw [← h]
    rfl
  | list l =>
    simp only [serializeInputEntry, Option.some.injEq] at h
    rw [← h]
    rfl

/-- E is the unique entry carrying name n in the serialized inputs
list. -/
def uniqueInputEntry (entries : List InputEntry) (n : String) (E : InputEntry) : Prop :=
  E ∈ entries ∧ ∀ e ∈ entries, InputEntry.name e = n → e = E

theorem inputs_entry_mem (t : TaskState) (excl : List String) (n : String) (port : Port)
    (hn : n ∈ t.inputs.portnames) (hport : getPort t.inputs n = some port)
    (E : InputEntry) (hE : serializeInputEntry n port.value = some E) :
    uniqueInputEntry (generate_task_workflow_json t excl).inputs n E := by
  constructor
  · apply List.mem_filterMap.mpr
    refine ⟨n, hn, ?_⟩
    rw [hport, Option.some_bind]
    exact hE
  · intro e he hename
    obtain ⟨m, hm, hfm⟩ := List.mem_filterMap.mp he
    cases hgp : getPort t.inputs m with
    | none => rw [hgp] at hfm; simp at hfm
    | some q =>
      rw [hgp, Option.some_bind] at hfm
      have hem : InputEntry.name e = m := serializeInputEntry_name hfm
      have hmn : m = n := by rw [← hem, hename]
      subst hmn
      rw [hport] at hgp
      injection hgp with hgp
      subst hgp
      rw [hE] at hfm
      rw [Option.some.injEq] at hfm
      exact hfm.symm

theorem inputs_entry_absent (t : TaskState) (excl : List String) (n : String) (port : Port)
    (hport : getPort t.inputs n = some port)
    (hnone : serializeInputEntry n port.value = Option.none) :
    ∀ e ∈ (generate_task_workflow_json t excl).inputs, InputEntry.name e ≠ n := by
  intro e he hename
  obtain ⟨m, hm, hfm⟩ := List.mem_filterMap.mp he
  cases hgp : getPort t.inputs m with
  | none => rw [hgp] at hfm; simp at hfm
  | some q =>
    rw [hgp, Option.some_bind] at hfm
    have hem : InputEntry.name e = m := serializeInputEntry_name hfm
    have hmn : m = n := by rw [← hem, hename]
    subst hmn
    rw [hport] at hgp
    injection hgp with hgp
    subst hgp
    rw [hnone] at hfm
    exact absurd hfm (by simp)

/-- C2 (amended): the serialized inputs list of a task contains, for
every declared input port, exactly the entry dictated by the port
value: unset (None) ports are omitted entirely; boolean True/False
yield value entries with the strings "true"/"false"; a string value
beginning with "source:" yields a source entry whose source is the
value with every occurrence of the substring "source:" removed (str
replace semantics, not mere prefix removal); every other set value
yields a value entry carrying the value itself. -/
theorem c2_input_serialization (t : TaskState) (excl : List String) (n : String) (port : Port)
    (hn : n ∈ t.inputs.portnames) (hport : getPort t.inputs n = some port) :
    (port.value = PyVal.none →
      ∀ e ∈ (generate_task_workflow_json t excl).inputs, InputEntry.name e ≠ n) ∧
    (∀ b, port.value = PyVal.bool b →
      uniqueInputEntry (generate_task_workflow_json t excl).inputs n
        (InputEntry.value n (PyVal.str (if b then "true" else "false")))) ∧
    (∀ s, port.value = PyVal.str s → pyStartsWith s "source:" = true →
      uniqueInputEntry (generate_task_workflow_json t excl).inputs n
        (InputEntry.source n (pyReplace s "source:" ""))) ∧
    (∀ s, port.value = PyVal.str s → pyStartsWith s "source:" = false →
      uniqueInputEntry (generate_task_workflow_json t excl).inputs n
        (InputEntry.value n (PyVal.str s))) ∧
    (∀ m, port.value = PyVal.int m →
      uniqueInputEntry (generate_task_workflow_json t excl).inputs n
        (InputEntry.value n (PyVal.int m))) ∧
    (∀ l, port.value = PyVal.list l →
      uniqueInputEntry (generate_task_workflow_json t excl).inputs n
        (InputEntry.value n (PyVal.list l))) := by
  refine ⟨?_, ?_, ?_, ?_, ?_, ?_⟩
  · intro hv
    exact inputs_entry_absent t excl n port hport (by rw [hv]; rfl)
  · intro b hv
    exact inputs_entry_mem t excl n port hn hport _ (by rw [hv]; rfl)
  · intro s hv hsw
    refine inputs_entry_mem t excl n port hn hport _ ?_
    rw [hv]
    simp only [serializeInputEntry]
    rw [if_pos hsw]
  · intro s hv hsw
    refine inputs_entry_mem t excl n port hn hport _ ?_
    rw [hv]
    simp only [serializeInputEntry]
    rw [if_neg (by rw [hsw]; simp)]
  · intro m hv
    exact inputs_entry_mem t excl n port hn hport _ (by rw [hv]; rfl)
  · intro l hv
    exact inputs_entry_mem t excl n port hn hport _ (by rw [hv]; rfl)

/-- A task type with one plain string input port. -/
def c2Defn : TaskDefinition :=
  { inputPortDescriptors := [{ name := "p", type := "string" }],
    outputPortDescriptors := [] }

/-- The freshly constructed task. -/
def c2Task0 : TaskState := task_init_state "C" c2Defn "abcd0123"

/-- The task after assigning the adversarial value
source:a:source:b to port p. -/
def c2Task : TaskState :=
  match inputs_setattr c2Task0 "p" (PyVal.str "source:a:source:b") with
  | Except.ok t => t
  | Except.error _ => c2Task0

/-- The port p of c2Task. -/
def c2Port : Port :=
  { name := "p", type := "string", required := Option.none, description := Option.none,
    value := PyVal.str "source:a:source:b" }

/-- C2 counterexample: for the port value source:a:source:b the code
serializes the source field as a:b (str.replace removes every
occurrence of source:), not a:source:b (the value with only the prefix
removed) as the claim states. -/
theorem c2_counterexample :
    (generate_task_workflow_json c2Task []).inputs = [InputEntry.source "p" "a:b"] ∧
      ("a:b" : String) ≠ "a:source:b" :=
  ⟨rfl, by decide⟩

/-- Witness instantiating the amended C2 theorem on the concrete
task. -/
theorem c2_witness :
    ("p" ∈ c2Task.inputs.portnames) ∧
      getPort c2Task.inputs "p" = some c2Port ∧
      pyStartsWith "source:a:source:b" "source:" = true ∧
      uniqueInputEntry (generate_task_workflow_json c2Task []).inputs "p"
        (InputEntry.source "p" (pyReplace "source:a:source:b" "source:" "")) :=
  ⟨by decide, rfl, rfl,
    (c2_input_serialization c2Task [] "p" c2Port (by decide) rfl).2.2.1
      "source:a:source:b" rfl rfl⟩

/-- C3: assigning a list value to a declared input port stores the
placeholder string (with braces) on the port — never the list itself —
and appends the record with name batch_input_<port> and the assigned
values, in order, to the task batch_values list, created on first
use. -/
theorem c3_batch_list_assignment (t : TaskState) (n : String) (port : Port) (l : List PyVal)
    (hn : n ∈ t.inputs.portnames) (hport : getPort t.inputs n = some port) :
    inputs_setattr t n (PyVal.list l) = Except.ok
      { t with
          inputs := setattrObj t.inputs n
            (Attr.port { port with value := PyVal.str (batchPlaceholder n) }),
          batch_values :=
            some ((t.batch_values.getD []) ++ [{ name := "batch_input_" ++ n, values := l }]) } ∧
    getPort (setattrObj t.inputs n
        (Attr.port { port with value := PyVal.str (batchPlaceholder n) })) n =
      some { port with value := PyVal.str (batchPlaceholder n) } ∧
    batchPlaceholder n = "\x7b\x7bbatch_input_" ++ n ++ "\x7d\x7d" := by
  refine ⟨?_, getPort_setattr_self t.inputs n _, rfl⟩
  unfold inputs_setattr
  rw [if_pos ⟨hn, hasattr_of_getPort hport⟩]
  simp only [hport]
  have hbv : (match t.batch_values with
      | some (e :: es) => e :: es
      | _ => []) = t.batch_values.getD [] := by
    cases t.batch_values with
    | none => rfl
    | some bv => cases bv <;> rfl
  rw [hbv]

/-- A task type with one plain input port q. -/
def c3Defn : TaskDefinition :=
  { inputPortDescriptors := [{ name := "q", type := "string" }],
    outputPortDescriptors := [] }

/-- A freshly constructed task of that type. -/
def c3Task : TaskState := task_init_state "B3" c3Defn "0a1b2c3d"

/-- The declared port q right after construction. -/
def c3Port : Port := portFromInputDescriptor { name := "q", type := "string" }

/-- Witness instantiating the C3 theorem on a concrete task and a
concrete two-element list. -/
theorem c3_witness :
    ("q" ∈ c3Task.inputs.portnames) ∧
      getPort c3Task.inputs "q" = some c3Port ∧
      inputs_setattr c3Task "q" (PyVal.list [PyVal.str "a", PyVal.str "b"]) = Except.ok
        { c3Task with
            inputs := setattrObj c3Task.inputs "q"
              (Attr.port { c3Port with value := PyVal.str (batchPlaceholder "q") }),
            batch_values :=
              some ((c3Task.batch_values.getD []) ++
                [{ name := "batch_input_" ++ "q",
                   values := [PyVal.str "a", PyVal.str "b"] }]) } :=
  ⟨by decide, rfl,
    (c3_batch_list_assignment c3Task "q" c3Port [PyVal.str "a", PyVal.str "b"]
      (by decide) rfl).1⟩

/-- C7 (amended): a write to an input name that is neither declared nor
prefixed by a declared multiplex input port fails with the
AttributeError message Task has no input port named <name>. — which
names the requested port name (the owning task's type does not appear
in the message). -/
theorem c7_unknown_port_error (t : TaskState) (k : String) (v : PyVal)
    (hk : k ∉ t.inputs.portnames)
    (hm : get_matching_multiplex_port t.inputs k = Option.none) :
    inputs_setattr t k v = Except.error ("Task has no input port named " ++ k ++ ".") ∧
      hasSubstr ("Task has no input port named " ++ k ++ ".").data k.data = true := by
  constructor
  · unfold inputs_setattr
    rw [if_neg (fun hc => hk hc.1)]
    simp only [hm]
    rw [if_neg hk]
  · apply (hasSubstr_iff k.data _).mpr
    refine ⟨"Task has no input port named ".data, ".".data, ?_⟩
    have hd : ("Task has no input port named " ++ k ++ ".").data =
        "Task has no input port named ".data ++ k.data ++ ".".data := by
      rw [String.data_append, String.data_append]
    rw [hd, List.append_assoc]

/-- A task type footype with no ports at all. -/
def c7Defn : TaskDefinition :=
  { inputPortDescriptors := [], outputPortDescriptors := [] }

/-- A freshly constructed footype task. -/
def c7Task : TaskState := task_init_state "footype" c7Defn "ab12cd34"

/-- C7 counterexample: the raised message names the port but does not
contain the owning task's type footype anywhere. -/
theorem c7_counterexample :
    inputs_setattr c7Task "bogus" (PyVal.str "v") =
      Except.error "Task has no input port named bogus." ∧
      c7Task.type = "footype" ∧
      hasSubstr "Task has no input port named bogus.".data "footype".data = false :=
  ⟨rfl, rfl, by decide⟩

/-- Witness instantiating the amended C7 theorem concretely. -/
theorem c7_witness :
    ("bogus" ∉ c7Task.inputs.portnames) ∧
      get_matching_multiplex_port c7Task.inputs "bogus" = Option.none ∧
      (inputs_setattr c7Task "bogus" (PyVal.int 5) =
          Except.error ("Task has no input port named " ++ "bogus" ++ ".") ∧
        hasSubstr ("Task has no input port named " ++ "bogus" ++ ".").data "bogus".data = true) :=
  ⟨by decide, rfl, c7_unknown_port_error c7Task "bogus" (PyVal.int 5) (by decide) rfl⟩

/-- C8: on a workflow whose id is unset, the data and mutating
operations raise a not-running WorkflowError while the boolean
lifecycle predicates return false; the remote oracle r is universally
quantified and unused, so no remote call is involved either way. -/
theorem c8_unsubmitted_lifecycle (w : WorkflowState) (h : w.id = Option.none) (r : Remote) :
    workflow_status r w = Except.error "Workflow is not running.  Cannot check status." ∧
      workflow_cancel r w = Except.error "Workflow is not running.  Cannot cancel." ∧
      workflow_stdout r w = Except.error "Workflow is not running.  Cannot get stdout." ∧
      workflow_stderr r w = Except.error "Workflow is not running.  Cannot get stderr." ∧
      workflow_task_ids r w = Except.error "Workflow is not running.  Cannot get task IDs." ∧
      workflow_events r w = Except.error "Workflow is not running.  Cannot check status." ∧
      workflow_complete r w = Except.ok false ∧
      workflow_succeeded r w = Except.ok false ∧
      workflow_failed r w = Except.ok false ∧
      workflow_canceled r w = Except.ok false ∧
      workflow_running r w = Except.ok false ∧
      workflow_timedout r w = Except.ok false ∧
      workflow_scheduling r w = Except.ok false ∧
      workflow_rescheduling r w = Except.ok false ∧
      workflow_waiting r w = Except.ok false ∧
      workflow_submitting r w = Except.ok false := by
  have hid : pyTruthyId w.id = false := by rw [h]; rfl
  refine ⟨?_, ?_, ?_, ?_, ?_, ?_, ?_, ?_, ?_, ?_, ?_, ?_, ?_, ?_, ?_, ?_⟩
  · unfold workflow_status
    rw [if_pos hid]
  · unfold workflow_cancel
    rw [if_pos hid]
  · unfold workflow_stdout
    rw [if_pos hid]
  · unfold workflow_stderr
    rw [if_pos hid]
  · unfold workflow_task_ids
    rw [if_pos hid]
  · unfold workflow_events
    rw [if_pos hid]
  · unfold workflow_complete
    rw [if_pos hid]
  · unfold workflow_succeeded
    rw [if_pos hid]
  · unfold workflow_failed
    rw [if_pos hid]
  · unfold workflow_canceled
    rw [if_pos hid]
  · unfold workflow_running
    rw [if_pos hid]
  · unfold workflow_timedout
    rw [if_pos hid]
  · unfold workflow_scheduling
    rw [if_pos hid]
  · unfold workflow_rescheduling
    rw [if_pos hid]
  · unfold workflow_waiting
    rw [if_pos hid]
  · unfold workflow_submitting
    rw [if_pos hid]

/-- A concrete remote oracle used by witnesses. -/
def trivialRemote : Remote :=
  { launch := fun _ => "wid",
    launch_batch_workflow := fun _ => "bwid",
    statusOf := fun _ => { state := "running", event := "started" },
    batch_workflow_status := fun _ => { workflows := [] },
    getWf := fun _ => { tasks := [] },
    get_stdout := fun _ _ => "",
    get_stderr := fun _ _ => "",
    eventsOf := fun _ => [] }

/-- A never-executed workflow. -/
def c8Wf : WorkflowState :=
  { name := "wf8", id := Option.none, callback := Option.none, tasks := [],
    batch_values := Option.none }

/-- Witness instantiating the C8 theorem on a concrete unexecuted
workflow and a concrete remote. -/
theorem c8_witness :
    c8Wf.id = Option.none ∧
      workflow_status trivialRemote c8Wf =
        Except.error "Workflow is not running.  Cannot check status." ∧
      workflow_complete trivialRemote c8Wf = Except.ok false :=
  ⟨rfl, (c8_unsubmitted_lifecycle c8Wf rfl trivialRemote).1,
    (c8_unsubmitted_lifecycle c8Wf rfl trivialRemote).2.2.2.2.2.2.1⟩

/-- C9: a workflow with no tasks cannot be serialized (a WorkflowError
is raised before any document is produced), and execute, which starts
by generating the description, fails with the same error for every
remote oracle, so such a workflow can never be executed. -/
theorem c9_empty_workflow (w : WorkflowState) (h : w.tasks = []) (r : Remote) :
    generate_workflow_description w =
        Except.error "Workflow contains no tasks, and cannot be executed." ∧
      workflow_execute r w =
        Except.error "Workflow contains no tasks, and cannot be executed." := by
  have hgen : generate_workflow_description w =
      Except.error "Workflow contains no tasks, and cannot be executed." := by
    unfold generate_workflow_description
    rw [if_pos (by rw [h]; rfl)]
  refine ⟨hgen, ?_⟩
  unfold workflow_execute
  rw [hgen]

/-- A concrete workflow with zero tasks. -/
def c9Wf : WorkflowState :=
  { name := "wf9", id := Option.none, callback := Option.none, tasks := [],
    batch_values := Option.none }

/-- Witness instantiating the C9 theorem concretely. -/
theorem c9_witness :
    c9Wf.tasks = [] ∧
      (generate_workflow_description c9Wf =
          Except.error "Workflow contains no tasks, and cannot be executed." ∧
        workflow_execute trivialRemote c9Wf =
          Except.error "Workflow contains no tasks, and cannot be executed.") :=
  ⟨rfl, c9_empty_workflow c9Wf rfl trivialRemote⟩

/-- Whether a list of assigned values contains the exact boolean
True. -/
def containsTrue : List PyVal → Bool
  | [] => false
  | v :: vs =>
      (match v with
       | PyVal.bool true => true
       | _ => false) || containsTrue vs

theorem foldl_impersonation (vs : List PyVal) : ∀ t : TaskState,
    (List.foldl impersonation_allowed_set t vs).impersonation_attr =
      (if containsTrue vs then some true else t.impersonation_attr) := by
  induction vs with
  | nil => intro t; rfl
  | cons v rest ih =>
    intro t
    rw [List.foldl_cons, ih]
    cases v with
    | bool b =>
      cases b
      · simp [impersonation_allowed_set, containsTrue]
      · simp [impersonation_allowed_set, containsTrue]
    | none => simp [impersonation_allowed_set, containsTrue]
    | str s => simp [impersonation_allowed_set, containsTrue]
    | int m => simp [impersonation_allowed_set, containsTrue]
    | list l => simp [impersonation_allowed_set, containsTrue]

/-- C10: the impersonation_allowed attribute of a freshly constructed
task is unset; after any sequence of assignments it is True exactly
when the exact boolean True was assigned at some point (any other
value, including False, leaves it unchanged, so True is sticky); and
the serialized task record carries the impersonation_allowed field
exactly when True was assigned. -/
theorem c10_impersonation (ttype : String) (defn : TaskDefinition) (uuid8 : String)
    (kwargs : List (String × SetArg)) (t : TaskState)
    (hinit : task_init ttype defn uuid8 kwargs = Except.ok t) :
    t.impersonation_attr = Option.none ∧
      (∀ vs : List PyVal,
        (List.foldl impersonation_allowed_set t vs).impersonation_attr =
          (if containsTrue vs then some true else Option.none)) ∧
      (∀ (vs : List PyVal) (excl : List String),
        (generate_task_workflow_json (List.foldl impersonation_allowed_set t vs)
            excl).impersonation_allowed = containsTrue vs) := by
  have himp0 : t.impersonation_attr = Option.none := by
    unfold task_init at hinit
    have hres := task_set_preserves kwargs (task_init_state ttype defn uuid8) t hinit
      (initInputs_namesOk defn.inputPortDescriptors)
      (initOutputs_namesOk defn.outputPortDescriptors (mkTaskName ttype uuid8))
    exact hres.2.2.1
  refine ⟨himp0, ?_, ?_⟩
  · intro vs
    rw [foldl_impersonation vs t, himp0]
  · intro vs excl
    have hproj : (generate_task_workflow_json (List.foldl impersonation_allowed_set t vs)
        excl).impersonation_allowed =
          (match (List.foldl impersonation_allowed_set t vs).impersonation_attr with
           | some true => true
           | _ => false) := rfl
    rw [hproj, foldl_impersonation vs t, himp0]
    cases hc : containsTrue vs with
    | true => rw [if_pos rfl]
    | false => rw [if_neg (by simp)]

/-- A registry definition with no ports. -/
def c10Defn : TaskDefinition :=
  { inputPortDescriptors := [], outputPortDescriptors := [] }

/-- Witness instantiating the C10 theorem on a concrete
construction. -/
theorem c10_witness :
    task_init "it" c10Defn "u1u2u3u4" [] =
        Except.ok (task_init_state "it" c10Defn "u1u2u3u4") ∧
      (task_init_state "it" c10Defn "u1u2u3u4").impersonation_attr = Option.none ∧
      (generate_task_workflow_json
          (List.foldl impersonation_allowed_set (task_init_state "it" c10Defn "u1u2u3u4")
            [PyVal.bool false, PyVal.bool true])
          []).impersonation_allowed = containsTrue [PyVal.bool false, PyVal.bool true] :=
  ⟨rfl,
    (c10_impersonation "it" c10Defn "u1u2u3u4" [] _ rfl).1,
    (c10_impersonation "it" c10Defn "u1u2u3u4" [] _ rfl).2.2
      [PyVal.bool false, PyVal.bool true] []⟩

/-! Workflow serialization lemmas (C1). -/

theorem strMemVals_iff (s : String) (vs : List PyVal) :
    strMemVals s vs = true ↔ PyVal.str s ∈ vs := by
  unfold strMemVals
  rw [List.any_eq_true]
  constructor
  · rintro ⟨v, hv, hb⟩
    cases v with
    | str t2 =>
      rw [beq_iff_eq] at hb
      exact hb ▸ hv
    | none => simp at hb
    | bool b => simp at hb
    | int m => simp at hb
    | list l => simp at hb
  · intro hmem
    exact ⟨PyVal.str s, hmem, by simp⟩

theorem mem_concatMap {α β : Type} {f : α → List β} {b : β} :
    ∀ {l : List α}, b ∈ concatMap f l ↔ ∃ a ∈ l, b ∈ f a := by
  intro l
  induction l with
  | nil => simp [concatMap]
  | cons x xs ih => simp [concatMap, List.mem_append, ih]

theorem mem_allInputPortValues (tasks : List TaskState) (s : String) :
    PyVal.str s ∈ allInputPortValues tasks ↔
      ∃ t ∈ tasks, ∃ n ∈ t.inputs.portnames, ∃ q,
        getPort t.inputs n = some q ∧ q.value = PyVal.str s := by
  unfold allInputPortValues
  simp only [mem_concatMap, List.mem_filterMap, Option.map_eq_some']

theorem outputs_entry_name {t : TaskState} {excl : List String} {n : String} {e : OutputEntry}
    (h : (if n ∈ excl then Option.none
          else (getPort t.outputs n).map (fun p => serializeOutputEntry n p)) = some e) :
    e.name = n := by
  split at h
  · simp at h
  · rw [Option.map_eq_some'] at h
    obtain ⟨p, _, hp⟩ := h
    rw [← hp]
    rfl

theorem outputs_mem_gen (t : TaskState) (excl : List String) (p : String) (port : Port)
    (hp : p ∈ t.outputs.portnames) (hport : getPort t.outputs p = some port) :
    (∃ e ∈ (generate_task_workflow_json t excl).outputs, e.name = p) ↔ p ∉ excl := by
  constructor
  · rintro ⟨e, he, hename⟩
    obtain ⟨m, hm, hfm⟩ := List.mem_filterMap.mp he
    have hem : e.name = m := outputs_entry_name hfm
    have hmp2 : m = p := by rw [← hem, hename]
    subst hmp2
    intro hexcl
    rw [if_pos hexcl] at hfm
    simp at hfm
  · intro hnex
    refine ⟨serializeOutputEntry p port, ?_, rfl⟩
    apply List.mem_filterMap.mpr
    refine ⟨p, hp, ?_⟩
    rw [if_neg hnex, hport]
    rfl

theorem mem_exclude_iff (tasks : List TaskState) (t : TaskState) (p : String) (port : Port)
    (hp : p ∈ t.outputs.portnames) (hport : getPort t.outputs p = some port)
    (hmx : port.is_multiplex = true) (hlen : 1 < tasks.length) :
    p ∈ output_multiplex_ports_to_exclude tasks t ↔
      strMemVals ("source:" ++ t.name ++ ":" ++ p) (allInputPortValues tasks) = false := by
  unfold output_multiplex_ports_to_exclude
  rw [if_pos hlen]
  rw [List.mem_filter, List.mem_filter]
  constructor
  · rintro ⟨⟨_, _⟩, hcond⟩
    simpa using hcond
  · intro hmem
    refine ⟨⟨hp, ?_⟩, ?_⟩
    · simp only [hport]
      exact hmx
    · rw [hmem]
      rfl

/-- C1: in the generated workflow document, the serialized record of
each task appears with its computed exclusion set, and for a multiplex
output port p of a task t: with more than one task, p is omitted from
the serialized outputs exactly when the forward-reference string
source:<task>:<port> is the value of no input port of any task; with
exactly one task nothing is excluded, so every registered output port
(multiplex children included) appears. -/
theorem c1_multiplex_output_pruning
    (w : WorkflowState) (doc : WorkflowDefinitionJson)
    (hdoc : generate_workflow_description w = Except.ok doc)
    (t : TaskState) (ht : t ∈ w.tasks)
    (p : String) (port : Port)
    (hp : p ∈ t.outputs.portnames) (hport : getPort t.outputs p = some port) :
    generate_task_workflow_json t (output_multiplex_ports_to_exclude w.tasks t) ∈ doc.tasks ∧
      (1 < w.tasks.length → port.is_multiplex = true →
        ((¬ ∃ e ∈ (generate_task_workflow_json t
              (output_multiplex_ports_to_exclude w.tasks t)).outputs, e.name = p) ↔
          ¬ ∃ t2 ∈ w.tasks, ∃ m ∈ t2.inputs.portnames, ∃ q,
              getPort t2.inputs m = some q ∧
              q.value = PyVal.str ("source:" ++ t.name ++ ":" ++ p))) ∧
      (w.tasks.length = 1 →
        ∃ e ∈ (generate_task_workflow_json t
            (output_multiplex_ports_to_exclude w.tasks t)).outputs, e.name = p) := by
  have hne : w.tasks.isEmpty = false := by
    cases hts : w.tasks with
    | nil => rw [hts] at ht; simp at ht
    | cons a as => rfl
  have hdoc2 : doc.tasks = w.tasks.map (fun t =>
      generate_task_workflow_json t (output_multiplex_ports_to_exclude w.tasks t)) := by
    unfold generate_workflow_description at hdoc
    rw [if_neg (by simp [hne])] at hdoc
    rw [Except.ok.injEq] at hdoc
    rw [← hdoc]
  refine ⟨?_, ?_, ?_⟩
  · rw [hdoc2]
    exact List.mem_map_of_mem _ ht
  · intro hlen hmx
    have h1 := outputs_mem_gen t (output_multiplex_ports_to_exclude w.tasks t) p port hp hport
    have h2 := mem_exclude_iff w.tasks t p port hp hport hmx hlen
    constructor
    · intro hna hex
      have hpe : p ∈ output_multiplex_ports_to_exclude w.tasks t := by
        by_contra hpe
        exact hna (h1.mpr hpe)
      have hsm := h2.mp hpe
      have hmem : PyVal.str ("source:" ++ t.name ++ ":" ++ p) ∈ allInputPortValues w.tasks :=
        (mem_allInputPortValues w.tasks _).mpr hex
      rw [(strMemVals_iff _ _).mpr hmem] at hsm
      exact absurd hsm (by simp)
    · intro hnb ha
      have hpne := h1.mp ha
      have hnf : ¬ strMemVals ("source:" ++ t.name ++ ":" ++ p)
          (allInputPortValues w.tasks) = false :=
        fun hf => hpne (h2.mpr hf)
      have htrue : strMemVals ("source:" ++ t.name ++ ":" ++ p)
          (allInputPortValues w.tasks) = true := by
        cases hb : strMemVals ("source:" ++ t.name ++ ":" ++ p) (allInputPortValues w.tasks) with
        | false => exact absurd hb hnf
        | true => rfl
      exact hnb ((mem_allInputPortValues w.tasks _).mp ((strMemVals_iff _ _).mp htrue))
  · intro hlen1
    have hexcl : output_multiplex_ports_to_exclude w.tasks t = [] := by
      unfold output_multiplex_ports_to_exclude
      rw [if_neg (by rw [hlen1]; simp)]
    refine (outputs_mem_gen t _ p port hp hport).mpr ?_
    rw [hexcl]
    simp

/-- Upstream task with one multiplex output family data. -/
def c1DefnA : TaskDefinition :=
  { inputPortDescriptors := [],
    outputPortDescriptors := [{ name := "data", type := "directory", multiplex := some true }] }

/-- The upstream task instance (name A1_aaaabbbb). -/
def c1TaskA : TaskState := task_init_state "A1" c1DefnA "aaaabbbb"

/-- Downstream task with one input port in1. -/
def c1DefnB : TaskDefinition :=
  { inputPortDescriptors := [{ name := "in1", type := "directory" }],
    outputPortDescriptors := [] }

/-- The downstream task before wiring. -/
def c1TaskB0 : TaskState := task_init_state "B1" c1DefnB "ccccdddd"

/-- The downstream task wired to the upstream multiplex output. -/
def c1TaskB : TaskState :=
  match inputs_setattr c1TaskB0 "in1" (PyVal.str ("source:" ++ c1TaskA.name ++ ":data")) with
  | Except.ok t => t
  | Except.error _ => c1TaskB0

/-- The two-task workflow. -/
def c1Wf : WorkflowState :=
  { name := "wf1", id := Option.none, callback := Option.none,
    tasks := [c1TaskA, c1TaskB], batch_values := Option.none }

/-- The generated document of c1Wf. -/
def c1Doc : WorkflowDefinitionJson :=
  match generate_workflow_description c1Wf with
  | Except.ok d => d
  | Except.error _ =>
      { name := "", tasks := [], batch_values := Option.none, callback := Option.none }

/-- The multiplex output port data of the upstream task. -/
def c1PortData : Port :=
  portFromOutputDescriptor c1TaskA.name { name := "data", type := "directory", multiplex := some true }

/-- Witness instantiating the C1 theorem on the concrete two-task
workflow. -/
theorem c1_witness :
    generate_workflow_description c1Wf = Except.ok c1Doc ∧
      c1TaskA ∈ c1Wf.tasks ∧
      ("data" ∈ c1TaskA.outputs.portnames) ∧
      getPort c1TaskA.outputs "data" = some c1PortData ∧
      generate_task_workflow_json c1TaskA
          (output_multiplex_ports_to_exclude c1Wf.tasks c1TaskA) ∈ c1Doc.tasks :=
  ⟨rfl, List.mem_cons_self c1TaskA [c1TaskB], by decide, rfl,
    (c1_multiplex_output_pruning c1Wf c1Doc rfl c1TaskA
      (List.mem_cons_self c1TaskA [c1TaskB]) "data" c1PortData (by decide) rfl).1⟩

/-! Wiring lemmas (C4). -/

theorem getPort_initOutputs (descs : List PortDescriptor) (tn y : String)
    (hy : y ∈ (initOutputs descs tn).portnames) :
    ∃ d : PortDescriptor, d.name = y ∧
      getPort (initOutputs descs tn) y = some (portFromOutputDescriptor tn d) := by
  have hy2 : y ∈ descs.map (fun d => d.name) := by
    have hpn : (initOutputs descs tn).portnames = (descs.map (fun d => d.name)).dedup := rfl
    rw [hpn, List.mem_dedup] at hy
    exact hy
  obtain ⟨d, hd, hlk⟩ := alookup_initAttrs (portFromOutputDescriptor tn) y descs hy2
  refine ⟨d, hd, ?_⟩
  unfold getPort initOutputs
  rw [hlk]

theorem outputs_getattribute_declared (o : PortListState) (tn y : String)
    (hy : y ∈ o.portnames) :
    outputs_getattribute o tn y = (o, alookup y o.attrs) := by
  unfold outputs_getattribute
  rw [if_pos hy]

theorem alookup_of_getPort {pl : PortListState} {k : String} {p : Port}
    (h : getPort pl k = some p) : alookup k pl.attrs = some (Attr.port p) := by
  cases halk : alookup k pl.attrs with
  | none => simp [getPort, halk] at h
  | some a =>
    cases a with
    | raw v => simp [getPort, halk] at h
    | port q =>
      simp [getPort, halk] at h
      rw [h]

theorem pyStartsWith_data (s pre : String) (h : ∃ t, pre.data ++ t = s.data) :
    pyStartsWith s pre = true := by
  unfold pyStartsWith
  exact (isPrefixOf_iff_exists _ _).mpr h

theorem pyReplace_strip_data (s pre rest : String)
    (hs : s.data = pre.data ++ rest.data) (hp : pre.data ≠ [])
    (h : hasSubstr rest.data pre.data = false) :
    pyReplace s pre "" = rest := by
  unfold pyReplace
  rw [hs]
  have he : ("" : String).data = [] := rfl
  rw [he, replGo_strip pre.data rest.data hp h]

/-- No occurrence of source: inside the tail task_name:port of a
forward reference, provided neither part contains a colon and the task
name does not end in source. -/
theorem ref_noSub (nm y : String)
    (hcn : ':' ∉ nm.data) (hcy : ':' ∉ y.data)
    (hns : endsWithL nm.data "source".data = false) :
    hasSubstr (nm ++ ":" ++ y).data "source:".data = false := by
  have hd : (nm ++ ":" ++ y).data = nm.data ++ ':' :: y.data := by
    rw [String.data_append, String.data_append]
    simp
  have hpd : ("source:" : String).data = "source".data ++ [':'] := by decide
  rw [hd, hpd]
  apply noSub_around_colon
  · exact hcn
  · exact hcy
  · decide
  · intro t2 heq
    have htrue : endsWithL nm.data "source".data = true :=
      (endsWithL_iff nm.data "source".data).mpr ⟨t2, heq.symm⟩
    rw [hns] at htrue
    exact absurd htrue (by simp)

theorem task_set_single (B : TaskState) (x : String) (arg : SetArg) (B2 : TaskState)
    (h : inputs_setattr B x (unwrapArg arg) = Except.ok B2) :
    task_set B [(x, arg)] = Except.ok B2 := by
  unfold task_set
  simp only [List.foldlM_cons, List.foldlM_nil, h, except_bind_ok]
  rfl

/-- C4: reading a declared output port y of task A yields its Port
object without mutating the collection; passing that Port to
B.set(x=...) unwraps it to its forward-reference string value before
delegating to the input write path, so the serialized inputs of B carry
exactly the entry with name x and source <A.name>:y.  The colon-free
side conditions are guaranteed by the construction: task names have
every colon replaced by an underscore and never end in source (the
uuid suffix is hexadecimal), and port names reached through attribute
access are Python identifiers. -/
theorem c4_port_wiring
    (A B : TaskState) (x y : String) (px : Port) (descs : List PortDescriptor)
    (hAout : A.outputs = initOutputs descs A.name)
    (hy : y ∈ A.outputs.portnames)
    (hx : x ∈ B.inputs.portnames) (hxp : getPort B.inputs x = some px)
    (hcn : ':' ∉ A.name.data) (hcy : ':' ∉ y.data)
    (hns : endsWithL A.name.data "source".data = false) :
    ∃ p : Port,
      (outputs_getattribute A.outputs A.name y).1 = A.outputs ∧
      (outputs_getattribute A.outputs A.name y).2 = some (Attr.port p) ∧
      p.value = PyVal.str ("source:" ++ A.name ++ ":" ++ y) ∧
      ∃ B2, task_set B [(x, SetArg.port p)] = Except.ok B2 ∧
        uniqueInputEntry (generate_task_workflow_json B2 []).inputs x
          (InputEntry.source x (A.name ++ ":" ++ y)) := by
  have hy2 : y ∈ (initOutputs descs A.name).portnames := by
    rw [← hAout]
    exact hy
  obtain ⟨d, hd, hgp⟩ := getPort_initOutputs descs A.name y hy2
  have hgpA : getPort A.outputs y = some (portFromOutputDescriptor A.name d) := by
    rw [hAout]
    exact hgp
  have hval : (portFromOutputDescriptor A.name d).value =
      PyVal.str ("source:" ++ A.name ++ ":" ++ y) := by
    show PyVal.str ("source:" ++ A.name ++ ":" ++ d.name) = _
    rw [hd]
  have hsdata : ("source:" ++ A.name ++ ":" ++ y).data =
      ("source:" : String).data ++ (A.name ++ ":" ++ y).data := by
    simp [String.data_append]
  have hsw : pyStartsWith ("source:" ++ A.name ++ ":" ++ y) "source:" = true :=
    pyStartsWith_data _ _ ⟨(A.name ++ ":" ++ y).data, hsdata.symm⟩
  have hrepl : pyReplace ("source:" ++ A.name ++ ":" ++ y) "source:" "" =
      (A.name ++ ":" ++ y) :=
    pyReplace_strip_data _ _ _ hsdata (by decide) (ref_noSub A.name y hcn hcy hns)
  refine ⟨portFromOutputDescriptor A.name d, ?_, ?_, hval, ?_⟩
  · rw [outputs_getattribute_declared A.outputs A.name y hy]
  · rw [outputs_getattribute_declared A.outputs A.name y hy]
    exact alookup_of_getPort hgpA
  · have hset : inputs_setattr B x (PyVal.str ("source:" ++ A.name ++ ":" ++ y)) =
        Except.ok { B with inputs := setattrObj B.inputs x (Attr.port { px with value := PyVal.str ("source:" ++ A.name ++ ":" ++ y) }) } := by
      unfold inputs_setattr
      rw [if_pos ⟨hx, hasattr_of_getPort hxp⟩]
      simp only [hxp]
    have hset2 : inputs_setattr B x (unwrapArg (SetArg.port (portFromOutputDescriptor A.name d))) =
        Except.ok { B with inputs := setattrObj B.inputs x (Attr.port { px with value := PyVal.str ("source:" ++ A.name ++ ":" ++ y) }) } := by
      show inputs_setattr B x (portFromOutputDescriptor A.name d).value = _
      rw [hval]
      exact hset
    refine ⟨_, task_set_single B x (SetArg.port (portFromOutputDescriptor A.name d)) _ hset2, ?_⟩
    refine inputs_entry_mem
      { B with inputs := setattrObj B.inputs x (Attr.port { px with value := PyVal.str ("source:" ++ A.name ++ ":" ++ y) }) }
      [] x { px with value := PyVal.str ("source:" ++ A.name ++ ":" ++ y) } hx
      (getPort_setattr_self B.inputs x _) _ ?_
    simp only [serializeInputEntry]
    rw [if_pos hsw, hrepl]

/-- Upstream task type with a declared output port output1. -/
def c4DefnA : TaskDefinition :=
  { inputPortDescriptors := [],
    outputPortDescriptors := [{ name := "output1", type := "directory" }] }

/-- The upstream task (name A4_0f1e2d3c). -/
def c4TaskA : TaskState := task_init_state "A4" c4DefnA "0f1e2d3c"

/-- Downstream task type with a declared input port input1. -/
def c4DefnB : TaskDefinition :=
  { inputPortDescriptors := [{ name := "input1", type := "directory" }],
    outputPortDescriptors := [] }

/-- The downstream task. -/
def c4TaskB : TaskState := task_init_state "B4" c4DefnB "4b5a6978"

/-- The declared downstream input port before wiring. -/
def c4PortX : Port := portFromInputDescriptor { name := "input1", type := "directory" }

/-- Witness instantiating the C4 theorem on two concrete tasks. -/
theorem c4_witness :
    c4TaskA.outputs = initOutputs c4DefnA.outputPortDescriptors c4TaskA.name ∧
      ("output1" ∈ c4TaskA.outputs.portnames) ∧
      ("input1" ∈ c4TaskB.inputs.portnames) ∧
      getPort c4TaskB.inputs "input1" = some c4PortX ∧
      (':' ∉ c4TaskA.name.data) ∧
      endsWithL c4TaskA.name.data "source".data = false ∧
      (∃ p : Port,
        (outputs_getattribute c4TaskA.outputs c4TaskA.name "output1").1 = c4TaskA.outputs ∧
        (outputs_getattribute c4TaskA.outputs c4TaskA.name "output1").2 = some (Attr.port p) ∧
        p.value = PyVal.str ("source:" ++ c4TaskA.name ++ ":" ++ "output1") ∧
        ∃ B2, task_set c4TaskB [("input1", SetArg.port p)] = Except.ok B2 ∧
          uniqueInputEntry (generate_task_workflow_json B2 []).inputs "input1"
            (InputEntry.source "input1" (c4TaskA.name ++ ":" ++ "output1"))) :=
  ⟨rfl, by decide, by decide, rfl, by decide, by decide,
    c4_port_wiring c4TaskA c4TaskB "input1" "output1" c4PortX
      c4DefnA.outputPortDescriptors rfl (by decide) (by decide) rfl
      (by decide) (by decide) (by decide)⟩

/-- Shared branch lemma: a write to a name that is neither declared nor
multiplex-matched raises the AttributeError. -/
theorem inputs_setattr_unknown (t : TaskState) (k : String) (v : PyVal)
    (hk : k ∉ t.inputs.portnames)
    (hm : get_matching_multiplex_port t.inputs k = Option.none) :
    inputs_setattr t k v = Except.error ("Task has no input port named " ++ k ++ ".") := by
  unfold inputs_setattr
  rw [if_neg (fun hc => hk hc.1)]
  simp only [hm]
  rw [if_neg hk]

theorem task_set_single_error (B : TaskState) (x : String) (arg : SetArg) (e : String)
    (h : inputs_setattr B x (unwrapArg arg) = Except.error e) :
    task_set B [(x, arg)] = Except.error e := by
  unfold task_set
  simp only [List.foldlM_cons, h, except_bind_error]

/-- C5 (amended): the timeout setter rejects 0, 172800, and all values
outside the open interval (0, 172800) with a ValueError — error means
no new state, so the stored timeout is unchanged — and accepts 172799;
but the timeout keyword of the constructor is not routed to the
timeout attribute: Task.__init__ hands every kwarg to the input-port
write path, so constructing Task with timeout=100 raises the
unknown-input-port AttributeError whenever the definition declares no
input port named timeout, and the timeout attribute of a constructed
task always comes from the registry definition properties. -/
theorem c5_timeout (t : TaskState) (defn : TaskDefinition) (uuid8 : String) (w : PyVal)
    (hnd : "timeout" ∉ defn.inputPortDescriptors.map (fun d => d.name))
    (hnm : get_matching_multiplex_port (initInputs defn.inputPortDescriptors) "timeout" =
      Option.none) :
    (∀ v : Int, v ≤ 0 ∨ 172800 ≤ v →
      timeout_set t v = Except.error ("timeout of " ++ toString v ++ " is not a valid number")) ∧
      timeout_set t 172799 = Except.ok { t with timeout_attr := some 172799 } ∧
      task_init "x" defn uuid8 [("timeout", SetArg.val w)] =
        Except.error "Task has no input port named timeout." ∧
      (∀ t0, task_init "x" defn uuid8 [] = Except.ok t0 →
        t0.timeout_attr = defn.propertiesTimeout) := by
  refine ⟨?_, ?_, ?_, ?_⟩
  · intro v hv
    unfold timeout_set
    rw [if_neg (by rintro ⟨h1, h2⟩; omega)]
  · unfold timeout_set
    rw [if_pos ⟨by decide, by decide⟩]
  · have hk : "timeout" ∉ (task_init_state "x" defn uuid8).inputs.portnames := by
      intro hmem
      have hpn : (task_init_state "x" defn uuid8).inputs.portnames =
          (defn.inputPortDescriptors.map (fun d => d.name)).dedup := rfl
      rw [hpn, List.mem_dedup] at hmem
      exact hnd hmem
    have hstep : inputs_setattr (task_init_state "x" defn uuid8) "timeout"
        (unwrapArg (SetArg.val w)) =
        Except.error ("Task has no input port named " ++ "timeout" ++ ".") :=
      inputs_setattr_unknown (task_init_state "x" defn uuid8) "timeout" w hk hnm
    have hres := task_set_single_error (task_init_state "x" defn uuid8) "timeout"
      (SetArg.val w) _ hstep
    rw [show ("Task has no input port named " ++ "timeout" ++ "." : String) =
      "Task has no input port named timeout." from rfl] at hres
    exact hres
  · intro t0 h
    rw [show task_init "x" defn uuid8 [] =
      Except.ok (task_init_state "x" defn uuid8) from rfl] at h
    rw [Except.ok.injEq] at h
    rw [← h]
    rfl

/-- A registry definition with no ports at all. -/
def c5Defn : TaskDefinition :=
  { inputPortDescriptors := [], outputPortDescriptors := [] }

/-- A registry definition that does declare an input port named
timeout, and no properties timeout. -/
def c5DefnT : TaskDefinition :=
  { inputPortDescriptors := [{ name := "timeout", type := "string" }],
    outputPortDescriptors := [] }

/-- The task constructed from c5DefnT with the timeout=100 kwarg (which
lands on the input port, not the attribute). -/
def c5TaskT : TaskState :=
  match task_init "x" c5DefnT "deadbeef" [("timeout", SetArg.val (PyVal.int 100))] with
  | Except.ok t => t
  | Except.error _ => task_init_state "x" c5DefnT "deadbeef"

/-- C5 counterexample: Task(x, timeout=100) does not yield a task whose
timeout attribute is 100 — with no input port named timeout the
construction raises, and even with such a port declared the timeout
attribute stays at the registry value (here unset). -/
theorem c5_counterexample :
    task_init "x" c5Defn "deadbeef" [("timeout", SetArg.val (PyVal.int 100))] =
        Except.error "Task has no input port named timeout." ∧
      task_init "x" c5DefnT "deadbeef" [("timeout", SetArg.val (PyVal.int 100))] =
        Except.ok c5TaskT ∧
      c5TaskT.timeout_attr = Option.none ∧
      c5TaskT.timeout_attr ≠ some 100 :=
  ⟨rfl, rfl, rfl, by decide⟩

/-- Witness instantiating the amended C5 theorem concretely. -/
theorem c5_witness :
    ("timeout" ∉ c5Defn.inputPortDescriptors.map (fun d => d.name)) ∧
      get_matching_multiplex_port (initInputs c5Defn.inputPortDescriptors) "timeout" =
        Option.none ∧
      timeout_set (task_init_state "x" c5Defn "deadbeef") 172799 =
        Except.ok { task_init_state "x" c5Defn "deadbeef" with timeout_attr := some 172799 } ∧
      timeout_set (task_init_state "x" c5Defn "deadbeef") 0 =
        Except.error ("timeout of " ++ toString (0 : Int) ++ " is not a valid number") ∧
      task_init "x" c5Defn "deadbeef" [("timeout", SetArg.val (PyVal.int 100))] =
        Except.error "Task has no input port named timeout." :=
  ⟨by decide, rfl,
    (c5_timeout (task_init_state "x" c5Defn "deadbeef") c5Defn "deadbeef"
      (PyVal.int 100) (by decide) rfl).2.1,
    (c5_timeout (task_init_state "x" c5Defn "deadbeef") c5Defn "deadbeef"
      (PyVal.int 100) (by decide) rfl).1 0 (Or.inl (by decide)),
    (c5_timeout (task_init_state "x" c5Defn "deadbeef") c5Defn "deadbeef"
      (PyVal.int 100) (by decide) rfl).2.2.1⟩
